import Mathlib

/-!
Verification development for the Gemini-Transcription-MCP server.

The TypeScript sources are shallowly embedded as executable Lean
definitions:

* JavaScript strings are modelled as `Str := List Char`; the relevant
  JS string primitives (`trim`, `startsWith`, `slice`, regex-replace
  pipelines restricted to the character classes actually used) are
  re-implemented on `Str`.
* Filesystem, network and subprocess effects are modelled by a pure
  "world" record supplying their outcomes (acquired file size, HTTP
  status, scp/ffmpeg exit codes, ...) and by an event list recording
  which side effects were requested, so that ordering claims
  ("before any transcoding") become statements about the event list.
* `JSON.parse` (a host built-in, not repository code) is a parameter
  `jsonParse : Str → Option ParsedFields` of the response parser.
* Temporary file names contain timestamps in the source; they are
  modelled by the symbolic path type `TPath`.
-/

/-- JS strings, modelled as lists of characters. -/
abbrev Str := List Char

deriving instance DecidableEq for Except

/-- The ASCII fragment of JavaScript whitespace (`\s`, `String.trim`):
space, tab, line feed, carriage return, vertical tab, form feed. -/
def isJsWs (c : Char) : Bool :=
  c = ' ' || c = '\t' || c = '\n' || c = '\r' || c = '\x0b' || c = '\x0c'

/-- `String.prototype.trim`: drop whitespace from both ends. -/
def jsTrim (s : Str) : Str :=
  ((s.dropWhile isJsWs).reverse.dropWhile isJsWs).reverse

/-- JS truthiness of an optional string: `undefined` and `''` are falsy. -/
def truthy : Option Str → Bool
  | none => false
  | some s => !s.isEmpty

/-- JS truthiness of an optional number: `undefined` and `0` are falsy. -/
def truthyNat : Option Nat → Bool
  | none => false
  | some n => n != 0

/-- `Math.round(size / 1024 / 1024)`.  Division by `2^20` is exact in
binary floating point for any file size below `2^53`, and `Math.round`
rounds half up, so the result is `⌊(size + 2^19) / 2^20⌋`. -/
def jsRoundMiB (size : Nat) : Nat := (size + 524288) / 1048576

/-- `path.basename`: the part after the last `/` (the source only ever
passes plain file names or POSIX paths). -/
def basename (s : Str) : Str :=
  (s.reverse.takeWhile (· ≠ '/')).reverse

/-- `path.extname(name).toLowerCase()` as used by the classifier:
the suffix of the basename starting at its last dot, empty when the
basename has no dot or only a leading dot, lower-cased. -/
def extnameLower (name : Str) : Str :=
  let base := basename name
  let afterFirst := base.drop 1
  if afterFirst.contains '.' then
    ('.' :: (afterFirst.reverse.takeWhile (· ≠ '.')).reverse).map Char.toLower
  else []

-- src/src/types.ts ------------------------------------------------------

/-- `GEMINI_NATIVE_FORMATS` (types.ts): extension → MIME for formats the
Gemini API accepts without conversion. -/
def GEMINI_NATIVE_FORMATS : List (Str × Str) :=
  [(".wav".data, "audio/wav".data),
   (".mp3".data, "audio/mp3".data),
   (".aiff".data, "audio/aiff".data),
   (".aac".data, "audio/aac".data),
   (".ogg".data, "audio/ogg".data),
   (".flac".data, "audio/flac".data)]

/-- `GEMINI_NATIVE_MIMES` (types.ts): MIME types Gemini natively accepts. -/
def GEMINI_NATIVE_MIMES : List Str :=
  ["audio/wav".data, "audio/mp3".data, "audio/mpeg".data, "audio/aiff".data,
   "audio/aac".data, "audio/ogg".data, "audio/flac".data]

/-- `EXTENDED_FORMATS` (types.ts): accepted formats that must be
converted to OGG/Opus before upload. -/
def EXTENDED_FORMATS : List (Str × Str) :=
  [(".opus".data, "audio/opus".data),
   (".m4a".data, "audio/mp4".data),
   (".webm".data, "audio/webm".data),
   (".wma".data, "audio/x-ms-wma".data),
   (".amr".data, "audio/amr".data),
   (".3gp".data, "audio/3gpp".data),
   (".caf".data, "audio/x-caf".data),
   (".spx".data, "audio/ogg".data)]

/-- `SUPPORTED_FORMATS = { ...GEMINI_NATIVE_FORMATS, ...EXTENDED_FORMATS }`
(the key sets are disjoint, so spread order is irrelevant). -/
def SUPPORTED_FORMATS : List (Str × Str) :=
  GEMINI_NATIVE_FORMATS ++ EXTENDED_FORMATS

/-- `MIME_TO_EXT` (types.ts). -/
def MIME_TO_EXT : List (Str × Str) :=
  [("audio/mpeg".data, ".mp3".data),
   ("audio/mp3".data, ".mp3".data),
   ("audio/wav".data, ".wav".data),
   ("audio/wave".data, ".wav".data),
   ("audio/x-wav".data, ".wav".data),
   ("audio/ogg".data, ".ogg".data),
   ("audio/opus".data, ".opus".data),
   ("audio/flac".data, ".flac".data),
   ("audio/x-flac".data, ".flac".data),
   ("audio/aac".data, ".aac".data),
   ("audio/aiff".data, ".aiff".data),
   ("audio/x-aiff".data, ".aiff".data),
   ("audio/mp4".data, ".m4a".data),
   ("audio/x-m4a".data, ".m4a".data),
   ("audio/webm".data, ".webm".data),
   ("audio/x-ms-wma".data, ".wma".data),
   ("audio/amr".data, ".amr".data),
   ("audio/3gpp".data, ".3gp".data),
   ("audio/x-caf".data, ".caf".data)]

/-- `MAX_FILE_SIZE_BYTES = 100 * 1024 * 1024` (types.ts). -/
def MAX_FILE_SIZE_BYTES : Nat := 100 * 1024 * 1024

/-- `DOWNSAMPLE_THRESHOLD_BYTES = 15 * 1024 * 1024` (types.ts). -/
def DOWNSAMPLE_THRESHOLD_BYTES : Nat := 15 * 1024 * 1024

/-- JS object property access `table[key]`, as an association-list lookup. -/
def lookupStr (table : List (Str × Str)) (key : Str) : Option Str :=
  match table.find? (fun kv => kv.1 == key) with
  | some kv => some kv.2
  | none => none

-- src/audio.ts (current version: src/unnamed/part_007) ------------------

/-- `mimeNormalization` table inside `getMimeTypeFromNameOrType`. -/
def mimeNormalization : List (Str × Str) :=
  [("audio/wave".data, "audio/wav".data),
   ("audio/x-wav".data, "audio/wav".data),
   ("audio/x-flac".data, "audio/flac".data),
   ("audio/x-aiff".data, "audio/aiff".data),
   ("audio/x-m4a".data, "audio/mp4".data)]

/-- `getMimeTypeFromNameOrType(fileName?, contentType?)` (audio.ts):
detected MIME type from a declared content type (after synonym
normalisation) or a file-name extension, defaulting to the
`audio/unknown` sentinel. -/
def getMimeTypeFromNameOrType (fileName : Option Str) (contentType : Option Str) : Str :=
  let fromContentType : Option Str :=
    match contentType with
    | some ct =>
      if ct.isEmpty then none
      else
        let normalized := (lookupStr mimeNormalization ct).getD ct
        if (lookupStr MIME_TO_EXT normalized).isSome
            || (lookupStr MIME_TO_EXT ct).isSome then
          some normalized
        else none
    | none => none
  match fromContentType with
  | some m => m
  | none =>
    match fileName with
    | some n =>
      if n.isEmpty then "audio/unknown".data
      else
        match lookupStr SUPPORTED_FORMATS (extnameLower n) with
        | some m => m
        | none => "audio/unknown".data
    | none => "audio/unknown".data

/-- `isGeminiNativeFormat(mimeType)` (audio.ts). -/
def isGeminiNativeFormat (mimeType : Str) : Bool :=
  GEMINI_NATIVE_MIMES.contains mimeType

-- Symbolic temporary-file paths (source names embed `Date.now()`) -------

/-- The distinct temporary files one invocation can create. -/
inductive TPath
  /-- the acquired temp file (`gemini_upload_` / `gemini_remote_` / `gemini_ssh_` / `gemini_vad_*_`) -/
  | tempAcquired
  /-- `gemini_converted_<ts>.ogg`, output of `convertToOggOpus` -/
  | converted
  /-- `vad_input_<ts>.wav`, output of `convertToVadFormat` -/
  | vadInput
  /-- `vad_cleaned_<ts>.wav`, the concatenated speech written by `processWithVad` -/
  | vadCleaned
deriving DecidableEq, Repr

/-- Rendering of a symbolic path for subprocess argument lists. -/
def pathName : TPath → Str
  | .tempAcquired => "/tmp/gemini_acquired".data
  | .converted => "/tmp/gemini_converted.ogg".data
  | .vadInput => "/tmp/vad_input.wav".data
  | .vadCleaned => "/tmp/vad_cleaned.wav".data

/-- Error taxonomy of the audio pipeline (each constructor corresponds
to one `throw new Error(...)` site in audio.ts). -/
inductive PrepError
  /-- `'Provide one of: fileContent, fileUrl, or sshHost+sshPath'` /
      `'sshHost and sshPath are required for SSH transfer'` -/
  | invalidInput
  /-- `'File too large (<mb>MB). Maximum size is 100MB.'`, carrying `Math.round(size/1024/1024)` -/
  | fileTooLarge (mb : Nat)
  /-- `'Failed to download file from URL (<status> ...)'` -/
  | fetchFailed (status : Nat)
  /-- `'No response body when downloading file'` -/
  | noResponseBody
  /-- `'scp failed with code <code>: <stderr>'` -/
  | scpFailed (code : Nat)
  /-- `'Failed to run scp'` / `'Failed to run ffmpeg. Is it installed?'` -/
  | toolUnavailable
  /-- `'ffmpeg failed with code <code>: <stderr>'` -/
  | transcodeFailed (code : Nat)
deriving DecidableEq, Repr

/-- Side effects requested by one invocation, in order. -/
inductive Ev
  /-- write a buffer/stream to a temp file -/
  | writeTemp (p : TPath)
  /-- HTTP GET of the remote URL -/
  | fetchUrl
  /-- spawn `scp` -/
  | spawnScp
  /-- spawn `ffmpeg` with the given argument list -/
  | spawnFfmpeg (args : List Str)
  /-- `fs.unlinkSync`; `ok` is the world-supplied outcome (ignored by the code) -/
  | unlink (p : TPath) (ok : Bool)
  /-- `cleanupTempFiles` was entered -/
  | cleanupCall
  /-- `ai.files.delete({ name })`; `ok` is the world-supplied outcome (ignored) -/
  | remoteDelete (name : Str) (ok : Bool)
deriving DecidableEq, Repr

/-- Outcomes of the external world consumed during acquisition and
transcoding. `none` exit codes model spawn failures (`on('error')`). -/
structure AcqWorld where
  /-- `fs.statSync(tempPath).size` of the acquired temp file -/
  acquiredSize : Nat
  /-- `response.ok` of the HTTP fetch -/
  fetchOk : Bool
  /-- HTTP status (used in the `FetchFailed` message) -/
  fetchStatus : Nat
  /-- `response.headers.get('content-type')` -/
  contentType : Option Str
  /-- whether `response.body` is non-null -/
  hasBody : Bool
  /-- basename of `new URL(fileUrl).pathname` (URL parsing is the host's) -/
  urlBasename : Str
  /-- scp exit code, `none` = spawn error -/
  scpExit : Option Nat
  /-- ffmpeg exit code for `convertToOggOpus`, `none` = spawn error -/
  ffmpegExit : Option Nat
  /-- ffmpeg exit code for `convertToVadFormat`, `none` = spawn error -/
  ffmpegVadExit : Option Nat
  /-- the speech segments produced by the Silero VAD pass, in order -/
  vadSegments : List (List Int)
  /-- `fs.existsSync` per path -/
  fileExists : TPath → Bool
  /-- `fs.unlinkSync` outcome per path (swallowed by the code) -/
  unlinkOk : TPath → Bool

/-- `PreparedAudioInfo` (audio.ts): the record returned by every
prepare function. -/
structure PreparedAudioInfo where
  processedPath : TPath
  mimeType : Str
  needsCleanup : Bool
  originalPath : TPath
deriving DecidableEq, Repr

/-- `PrepareAudioParams` (audio.ts). -/
structure PrepareAudioParams where
  fileContent : Option Str := none
  fileUrl : Option Str := none
  fileName : Option Str := none
  sshHost : Option Str := none
  sshPath : Option Str := none
  sshUser : Option Str := none
  sshPort : Option Nat := none

/-- The exact ffmpeg argument list of `convertToOggOpus` (audio.ts):
mono, 16 kHz, Opus at 24 kbps, voip tuning. -/
def opusArgs (inputPath outputPath : Str) : List Str :=
  ["-i".data, inputPath,
   "-ac".data, "1".data,
   "-ar".data, "16000".data,
   "-c:a".data, "libopus".data,
   "-b:a".data, "24k".data,
   "-application".data, "voip".data,
   "-y".data, outputPath]

/-- `convertToOggOpus(inputPath)` (audio.ts): spawn ffmpeg; resolve the
`.ogg` output path on exit 0, reject otherwise. -/
def convertToOggOpus (w : AcqWorld) (input : TPath) : Except PrepError TPath × List Ev :=
  let evs := [Ev.spawnFfmpeg (opusArgs (pathName input) (pathName .converted))]
  match w.ffmpegExit with
  | some 0 => (.ok .converted, evs)
  | some c => (.error (.transcodeFailed c), evs)
  | none => (.error .toolUnavailable, evs)

/-- `prepareAudioFromContent(fileContent, fileName?)` (audio.ts):
decode base64 to a temp file, apply the 100 MiB gate, then pass the
file through unchanged when the detected type is Gemini-native and at
most 15 MiB, else convert to OGG/Opus.  The decoded size is supplied
by the world model. -/
def prepareAudioFromContent (w : AcqWorld) (_fileContent : Str) (fileName : Option Str) :
    Except PrepError PreparedAudioInfo × List Ev :=
  let evs := [Ev.writeTemp .tempAcquired]
  let size := w.acquiredSize
  let detectedMime := getMimeTypeFromNameOrType fileName none
  if size > MAX_FILE_SIZE_BYTES then
    (.error (.fileTooLarge (jsRoundMiB size)),
     evs ++ [Ev.unlink .tempAcquired (w.unlinkOk .tempAcquired)])
  else if !isGeminiNativeFormat detectedMime then
    match convertToOggOpus w .tempAcquired with
    | (.ok p, e2) =>
      (.ok ⟨p, "audio/ogg".data, true, .tempAcquired⟩, evs ++ e2)
    | (.error e, e2) => (.error e, evs ++ e2)
  else if size ≤ DOWNSAMPLE_THRESHOLD_BYTES then
    (.ok ⟨.tempAcquired, detectedMime, true, .tempAcquired⟩, evs)
  else
    match convertToOggOpus w .tempAcquired with
    | (.ok p, e2) =>
      (.ok ⟨p, "audio/ogg".data, true, .tempAcquired⟩, evs ++ e2)
    | (.error e, e2) => (.error e, evs ++ e2)

/-- `prepareAudioFromUrl(fileUrl, fileName?)` (audio.ts): HTTP GET,
stream to a temp file, size gate, then the same native/convert branch.
The display name resolves to the explicit override, else the URL
basename, else a generated fallback. -/
def prepareAudioFromUrl (w : AcqWorld) (_fileUrl : Str) (fileName : Option Str) :
    Except PrepError PreparedAudioInfo × List Ev :=
  let evs := [Ev.fetchUrl]
  if !w.fetchOk then (.error (.fetchFailed w.fetchStatus), evs)
  else
    let resolvedFileName :=
      if truthy fileName then fileName.getD []
      else if !w.urlBasename.isEmpty then w.urlBasename
      else "downloaded.audio".data
    let detectedMime := getMimeTypeFromNameOrType (some resolvedFileName) w.contentType
    if !w.hasBody then (.error .noResponseBody, evs)
    else
      let evs := evs ++ [Ev.writeTemp .tempAcquired]
      let size := w.acquiredSize
      if size > MAX_FILE_SIZE_BYTES then
        (.error (.fileTooLarge (jsRoundMiB size)),
         evs ++ [Ev.unlink .tempAcquired (w.unlinkOk .tempAcquired)])
      else if !isGeminiNativeFormat detectedMime then
        match convertToOggOpus w .tempAcquired with
        | (.ok p, e2) =>
          (.ok ⟨p, "audio/ogg".data, true, .tempAcquired⟩, evs ++ e2)
        | (.error e, e2) => (.error e, evs ++ e2)
      else if size ≤ DOWNSAMPLE_THRESHOLD_BYTES then
        (.ok ⟨.tempAcquired, detectedMime, true, .tempAcquired⟩, evs)
      else
        match convertToOggOpus w .tempAcquired with
        | (.ok p, e2) =>
          (.ok ⟨p, "audio/ogg".data, true, .tempAcquired⟩, evs ++ e2)
        | (.error e, e2) => (.error e, evs ++ e2)

/-- `prepareAudioFromSsh(params)` (audio.ts): spawn scp, size gate,
then the same native/convert branch.  The detected type is classified
from `params.fileName || resolvedFileName`. -/
def prepareAudioFromSsh (w : AcqWorld) (params : PrepareAudioParams) :
    Except PrepError PreparedAudioInfo × List Ev :=
  if !(truthy params.sshHost && truthy params.sshPath) then
    (.error .invalidInput, [])
  else
    let sshPath := params.sshPath.getD []
    let resolvedFileName :=
      if truthy params.fileName then params.fileName.getD []
      else if !(basename sshPath).isEmpty then basename sshPath
      else "ssh_audio".data
    let evs := [Ev.spawnScp]
    match w.scpExit with
    | none => (.error .toolUnavailable, evs)
    | some c =>
      if c = 0 then
        let evs := evs ++ [Ev.writeTemp .tempAcquired]
        let size := w.acquiredSize
        if size > MAX_FILE_SIZE_BYTES then
          (.error (.fileTooLarge (jsRoundMiB size)),
           evs ++ [Ev.unlink .tempAcquired (w.unlinkOk .tempAcquired)])
        else
          let detectedMime :=
            getMimeTypeFromNameOrType
              (some (if truthy params.fileName then params.fileName.getD [] else resolvedFileName))
              none
          if !isGeminiNativeFormat detectedMime then
            match convertToOggOpus w .tempAcquired with
            | (.ok p, e2) =>
              (.ok ⟨p, "audio/ogg".data, true, .tempAcquired⟩, evs ++ e2)
            | (.error e, e2) => (.error e, evs ++ e2)
          else if size ≤ DOWNSAMPLE_THRESHOLD_BYTES then
            (.ok ⟨.tempAcquired, detectedMime, true, .tempAcquired⟩, evs)
          else
            match convertToOggOpus w .tempAcquired with
            | (.ok p, e2) =>
              (.ok ⟨p, "audio/ogg".data, true, .tempAcquired⟩, evs ++ e2)
            | (.error e, e2) => (.error e, evs ++ e2)
      else (.error (.scpFailed c), evs)

/-- `prepareAudioInput(params)` (audio.ts): dispatch on the first
truthy variant, in the fixed order content → URL → SSH; throw
`InvalidInput` only when none is usable. -/
def prepareAudioInput (w : AcqWorld) (params : PrepareAudioParams) :
    Except PrepError PreparedAudioInfo × List Ev :=
  if truthy params.fileContent then
    prepareAudioFromContent w (params.fileContent.getD []) params.fileName
  else if truthy params.fileUrl then
    prepareAudioFromUrl w (params.fileUrl.getD []) params.fileName
  else if truthy params.sshHost && truthy params.sshPath then
    prepareAudioFromSsh w params
  else
    (.error .invalidInput, [])

/-- The gate-free acquisition block shared verbatim (up to temp-file
name prefixes, which the symbolic paths absorb) by
`prepareAudioInputCompressed` and `prepareAudioInputWithVad`
(audio.ts): write the decoded payload / fetched body / scp-copied file
to a temp file, with **no** size check on any variant. -/
def acquireWithoutSizeGate (w : AcqWorld) (params : PrepareAudioParams) :
    Except PrepError Unit × List Ev :=
  if truthy params.fileContent then
    (.ok (), [Ev.writeTemp .tempAcquired])
  else if truthy params.fileUrl then
    if !w.fetchOk then (.error (.fetchFailed w.fetchStatus), [Ev.fetchUrl])
    else if !w.hasBody then (.error .noResponseBody, [Ev.fetchUrl])
    else (.ok (), [Ev.fetchUrl, Ev.writeTemp .tempAcquired])
  else if truthy params.sshHost && truthy params.sshPath then
    match w.scpExit with
    | none => (.error .toolUnavailable, [Ev.spawnScp])
    | some 0 => (.ok (), [Ev.spawnScp, Ev.writeTemp .tempAcquired])
    | some c => (.error (.scpFailed c), [Ev.spawnScp])
  else (.error .invalidInput, [])

/-- `prepareAudioInputCompressed(params)` (audio.ts): acquire by the
same three variants — with no size gate on any of them — then always
convert to OGG/Opus. -/
def prepareAudioInputCompressed (w : AcqWorld) (params : PrepareAudioParams) :
    Except PrepError PreparedAudioInfo × List Ev :=
  match acquireWithoutSizeGate w params with
  | (.error e, evs) => (.error e, evs)
  | (.ok _, evs) =>
    match convertToOggOpus w .tempAcquired with
    | (.ok p, e2) =>
      (.ok ⟨p, "audio/ogg".data, true, .tempAcquired⟩, evs ++ e2)
    | (.error e, e2) => (.error e, evs ++ e2)

-- VAD processing (audio.ts: processWithVad / prepareAudioInputWithVad) --

/-- ffmpeg argument list of `convertToVadFormat` (audio.ts): mono,
16 kHz, 16-bit PCM WAV. -/
def vadFormatArgs (inputPath outputPath : Str) : List Str :=
  ["-i".data, inputPath,
   "-ac".data, "1".data,
   "-ar".data, "16000".data,
   "-f".data, "wav".data,
   "-acodec".data, "pcm_s16le".data,
   "-y".data, outputPath]

/-- `convertToVadFormat(inputPath)` (audio.ts). -/
def convertToVadFormat (w : AcqWorld) (input : TPath) : Except PrepError TPath × List Ev :=
  let evs := [Ev.spawnFfmpeg (vadFormatArgs (pathName input) (pathName .vadInput))]
  match w.ffmpegVadExit with
  | some 0 => (.ok .vadInput, evs)
  | some c => (.error (.transcodeFailed c), evs)
  | none => (.error .toolUnavailable, evs)

/-- `Math.floor(sampleRate * 0.1)` with `sampleRate = 16000` (the rate
`readWavAsFloat32` always reports): the 100 ms silence gap, in samples. -/
def vadGapSamples : Nat := 1600

/-- The segment-concatenation loop of `processWithVad` (audio.ts,
step 4): append the speech segments in order, writing a
`vadGapSamples`-long run of zero samples between consecutive segments
(and after none of the others). -/
def concatSpeechSegments : List (List Int) → List Int
  | [] => []
  | [s] => s
  | s :: t :: rest =>
    s ++ List.replicate vadGapSamples 0 ++ concatSpeechSegments (t :: rest)

/-- Result of `processWithVad`: the path it resolves with, plus the
sample data written when a new file was produced. -/
structure VadOutcome where
  outPath : TPath
  written : Option (List Int)
deriving DecidableEq, Repr

/-- `processWithVad(inputPath)` (audio.ts): convert to 16 kHz mono PCM,
run Silero VAD (its spans come from the world model), return the input
path unchanged when no speech was detected, otherwise write the
concatenated spans (with 100 ms gaps) to a new WAV file. -/
def processWithVad (w : AcqWorld) (input : TPath) : Except PrepError VadOutcome × List Ev :=
  match convertToVadFormat w input with
  | (.error e, evs) => (.error e, evs)
  | (.ok vadInputPath, evs) =>
    let segments := w.vadSegments
    if segments.isEmpty then
      (.ok ⟨input, none⟩, evs ++ [Ev.unlink vadInputPath (w.unlinkOk vadInputPath)])
    else
      let concatenated := concatSpeechSegments segments
      (.ok ⟨.vadCleaned, some concatenated⟩,
       evs ++ [Ev.writeTemp .vadCleaned, Ev.unlink vadInputPath (w.unlinkOk vadInputPath)])

/-- `prepareAudioInputWithVad(params)` (audio.ts): acquire by the same
three variants (again with no size gate), run VAD, then always convert
the VAD result to OGG/Opus. -/
def prepareAudioInputWithVad (w : AcqWorld) (params : PrepareAudioParams) :
    Except PrepError PreparedAudioInfo × List Ev :=
  match acquireWithoutSizeGate w params with
  | (.error e, evs) => (.error e, evs)
  | (.ok _, evs) =>
    match processWithVad w .tempAcquired with
    | (.error e, e2) => (.error e, evs ++ e2)
    | (.ok vadOut, e2) =>
      match convertToOggOpus w vadOut.outPath with
      | (.error e, e3) => (.error e, evs ++ e2 ++ e3)
      | (.ok p, e3) =>
        let cleanupMid :=
          if vadOut.outPath ≠ .tempAcquired && w.fileExists vadOut.outPath then
            [Ev.unlink vadOut.outPath (w.unlinkOk vadOut.outPath)]
          else []
        (.ok ⟨p, "audio/ogg".data, true, .tempAcquired⟩, evs ++ e2 ++ e3 ++ cleanupMid)

-- Temporary Resource Tracker (audio.ts: cleanupTempFiles) ---------------

/-- `cleanupTempFiles(fileInfo)` (audio.ts): when cleanup is required,
best-effort-unlink the processed path, then — only when it differs from
the processed path — the original path.  Unlink outcomes are swallowed,
so the function only emits attempt events. -/
def cleanupTempFiles (fileExists : TPath → Bool) (unlinkOk : TPath → Bool)
    (fileInfo : PreparedAudioInfo) : List Ev :=
  if fileInfo.needsCleanup then
    (if fileExists fileInfo.processedPath then
      [Ev.unlink fileInfo.processedPath (unlinkOk fileInfo.processedPath)]
    else [])
    ++
    (if fileInfo.originalPath ≠ fileInfo.processedPath
        && fileExists fileInfo.originalPath then
      [Ev.unlink fileInfo.originalPath (unlinkOk fileInfo.originalPath)]
    else [])
  else []

-- Response parsing (src/transcribe.ts, current version: part_006) -------

/-- The fields the code reads off the parsed JSON reply
(`Partial<TranscriptionResponse>` plus the `format_applied` key the
format prompt requests).  Values are modelled as optional strings. -/
structure ParsedFields where
  title : Option Str := none
  description : Option Str := none
  transcript : Option Str := none
  formatApplied : Option Str := none
deriving DecidableEq, Repr

/-- First reassignment of `cleaned` in `parseJsonResponse`
(transcribe.ts): drop a leading ```` ```json ```` (7 chars,
`slice(7)`) or a bare ```` ``` ```` (3 chars, `slice(3)`). -/
def stripLeadingFence (cleaned : Str) : Str :=
  if "```json".data.isPrefixOf cleaned then cleaned.drop 7
  else if "```".data.isPrefixOf cleaned then cleaned.drop 3
  else cleaned

/-- Second reassignment of `cleaned` (transcribe.ts): drop a trailing
```` ``` ```` (`slice(0, -3)`). -/
def stripTrailingFence (cleaned : Str) : Str :=
  if "```".data.isSuffixOf cleaned then cleaned.take (cleaned.length - 3)
  else cleaned

/-- The fence-stripping prefix of `parseJsonResponse` (transcribe.ts):
trim, strip a leading fence, strip a trailing fence, trim again. -/
def stripCodeFences (text : Str) : Str :=
  jsTrim (stripTrailingFence (stripLeadingFence (jsTrim text)))

/-- `parseJsonResponse(text)` (transcribe.ts), parameterised by the
host's `JSON.parse` (`none` models a parse exception): strip fences,
attempt parsing, and on failure return the fixed fallback whose
transcript is the entire original text. -/
def parseJsonResponse (jsonParse : Str → Option ParsedFields) (text : Str) : ParsedFields :=
  let cleaned := stripCodeFences text
  match jsonParse cleaned with
  | some parsed => parsed
  | none =>
    { title := some "Voice Note".data
      description := some "Transcribed voice note.".data
      transcript := some text }

/-- Locally computed timestamps (`formatTimestamp`), opaque data here. -/
structure Timestamps where
  iso : Str
  readable : Str
deriving DecidableEq, Repr

/-- The value the server returns for one transcription.  The JS object
literal at the end of `transcribeAudio` has exactly the five fields
below; `formatApplied` records whether a `format_applied` key is
present (`none` = absent, as in the literal). -/
structure TranscriptionResponse where
  title : Str
  description : Str
  transcript : Str
  timestamp : Str
  timestamp_readable : Str
  formatApplied : Option Str := none
deriving DecidableEq, Repr

/-- JS `x || d` on an optional string field of the parsed reply. -/
def orDefault (v : Option Str) (d : Str) : Str :=
  match v with
  | some s => if s.isEmpty then d else s
  | none => d

/-- The result construction of `transcribeAudio` (transcribe.ts):
`parsed.title || 'Voice Note'`, `parsed.description || 'Transcribed
voice note.'`, `parsed.transcript || text`, plus the timestamps.  The
object literal carries no `format_applied` key. -/
def buildResponse (parsed : ParsedFields) (text : Str) (ts : Timestamps) :
    TranscriptionResponse :=
  { title := orDefault parsed.title "Voice Note".data
    description := orDefault parsed.description "Transcribed voice note.".data
    transcript := orDefault parsed.transcript text
    timestamp := ts.iso
    timestamp_readable := ts.readable }

-- Transcription session (transcribe.ts: transcribeAudio and its two
-- strategy twins, which differ only in the prepare call) ----------------

/-- Fatal errors of one transcription invocation. -/
inductive TransError
  /-- rethrown pipeline error (including the pre-prepare variant check) -/
  | prep (e : PrepError)
  /-- upload to the Files API failed -/
  | upload (msg : Str)
  /-- `'File processing failed in Gemini'` (terminal FAILED state) -/
  | remoteProcessingFailed
  /-- `generateContent` failed -/
  | generate (msg : Str)
  /-- `'No text response from Gemini'` -/
  | emptyResponse
deriving DecidableEq, Repr

/-- World outcomes consumed by one `transcribeAudio` invocation.  The
three exported strategies (`transcribeAudio`,
`transcribeAudioCompressed`, `transcribeAudioWithVad`) are textually
identical after the prepare call, so the prepare stage enters the model
as its outcome `prepareResult`. -/
structure RunWorld where
  /-- outcome of `prepareAudioInput` / `...Compressed` / `...WithVad` -/
  prepareResult : Except PrepError PreparedAudioInfo
  /-- events emitted by the prepare stage -/
  prepareEvents : List Ev
  /-- `ai.files.upload` outcome: error message or `uploadResult.name` -/
  uploadResult : Except Str Str
  /-- whether polling ends in the terminal `FAILED` state -/
  pollFailed : Bool
  /-- `generateContent` outcome: error message or `result.text` (`none` = undefined) -/
  generateResult : Except Str (Option Str)
  /-- the host's `JSON.parse` -/
  jsonParse : Str → Option ParsedFields
  /-- locally computed timestamps -/
  ts : Timestamps
  /-- `fs.existsSync` per path -/
  fileExists : TPath → Bool
  /-- `fs.unlinkSync` outcome per path (swallowed) -/
  unlinkOk : TPath → Bool
  /-- `ai.files.delete` outcome (swallowed) -/
  remoteDeleteOk : Bool

/-- The `finally` block of `transcribeAudio` (transcribe.ts): run
`cleanupTempFiles` when a `PreparedAudioInfo` was constructed, then
best-effort-delete the remote handle when an upload name was recorded. -/
def finallyEvents (w : RunWorld) (audioInfo : Option PreparedAudioInfo)
    (uploadedFileName : Option Str) : List Ev :=
  (match audioInfo with
   | some info => Ev.cleanupCall :: cleanupTempFiles w.fileExists w.unlinkOk info
   | none => [])
  ++
  (match uploadedFileName with
   | some name => [Ev.remoteDelete name w.remoteDeleteOk]
   | none => [])

/-- `transcribeAudio(input)` (transcribe.ts): variant check, prepare,
upload, poll, generate, parse, build the response; the `finally` block
runs on every exit path with whatever `audioInfo` / `uploadedFileName`
had been assigned by then. -/
def transcribeAudioRun (w : RunWorld) (p : PrepareAudioParams) :
    Except TransError TranscriptionResponse × List Ev :=
  if !truthy p.fileContent && !truthy p.fileUrl && !truthy p.sshHost then
    (.error (.prep .invalidInput), finallyEvents w none none)
  else
    match w.prepareResult with
    | .error e => (.error (.prep e), w.prepareEvents ++ finallyEvents w none none)
    | .ok info =>
      match w.uploadResult with
      | .error m =>
        (.error (.upload m), w.prepareEvents ++ finallyEvents w (some info) none)
      | .ok name =>
        if w.pollFailed then
          (.error .remoteProcessingFailed,
           w.prepareEvents ++ finallyEvents w (some info) (some name))
        else
          match w.generateResult with
          | .error m =>
            (.error (.generate m),
             w.prepareEvents ++ finallyEvents w (some info) (some name))
          | .ok t =>
            let text := t.getD []
            if text.isEmpty then
              (.error .emptyResponse,
               w.prepareEvents ++ finallyEvents w (some info) (some name))
            else
              let parsed := parseJsonResponse w.jsonParse text
              (.ok (buildResponse parsed text w.ts),
               w.prepareEvents ++ finallyEvents w (some info) (some name))

-- Tool dispatcher (src/index.ts) ----------------------------------------

/-- The handler's up-front variant check (index.ts line 441):
`!fileContent && !fileUrl && !sshHost` — it rejects only the
all-missing case and never rejects multiple variants. -/
def handlerMissingParams (p : PrepareAudioParams) : Bool :=
  !truthy p.fileContent && !truthy p.fileUrl && !truthy p.sshHost

/-- `/[^\w\s-]/`: keep word characters (`[A-Za-z0-9_]`), whitespace,
and hyphens; everything else is removed by `slugify`. -/
def isSlugKeep (c : Char) : Bool :=
  c.isAlphanum || c = '_' || isJsWs c || c = '-'

/-- Regex-replace of every maximal run of `p`-characters by the single
character `rep` (the `\s+` → `-` and `-+` → `-` steps of `slugify`).
The `inRun` flag records whether the previous character was in a run. -/
def replaceRuns (p : Char → Bool) (rep : Char) : Bool → Str → Str
  | _, [] => []
  | inRun, c :: rest =>
    if p c then
      if inRun then replaceRuns p rep true rest
      else rep :: replaceRuns p rep true rest
    else c :: replaceRuns p rep false rest

/-- `slugify(text)` (index.ts): lower-case, strip characters outside
`[\w\s-]`, collapse whitespace runs to single hyphens, collapse hyphen
runs, trim, and truncate to 80 characters. -/
def slugify (text : Str) : Str :=
  let s := text.map Char.toLower
  let s := s.filter isSlugKeep
  let s := replaceRuns isJsWs '-' false s
  let s := replaceRuns (· = '-') '-' false s
  let s := jsTrim s
  s.take 80
/-- `generateFormatPrompt(format)` (prompt.ts): the single template
literal with the caller's `format` interpolated at its seven holes. -/
def generateFormatPrompt (format : Str) : Str :=
  "The audio binary provided contains a voice note dictated by the user. Your task is to transcribe this content and format it as: **".data
  ++ format ++ "**\n\n## Instructions\n\n1. **Transcribe the audio content** - Capture all meaningful content from the audio\n2. **Apply light cleanup** - Remove filler words (\"um,\" \"uh,\" \"like\"), honor verbal corrections, add punctuation\n3. **Format the output** as a ".data
  ++ format ++ " - Structure the transcribed content appropriately for this format\n\n## Format-Specific Guidance\n\nBased on the requested format \"".data
  ++ format ++ "\", apply appropriate structural conventions:\n\n- **Email**: Include a subject line suggestion, greeting, body paragraphs, and sign-off placeholder\n- **To-do list / Task list**: Extract actionable items as a bulleted or numbered list with checkboxes\n- **Meeting notes**: Include attendees (if mentioned), date, key discussion points, action items, and decisions\n- **Technical document**: Use proper headings, sections, code formatting if applicable\n- **Blog post**: Include a compelling title, introduction, body sections with subheadings, conclusion\n- **Summary / Executive summary**: Condense to key points, main takeaways, and recommendations\n- **Letter**: Formal letter structure with date, recipient, salutation, body, closing\n- **Report**: Structured sections with findings, analysis, and conclusions\n- **Script / Dialogue**: Format with speaker labels and stage directions if applicable\n- **Outline**: Hierarchical structure with main topics and subtopics\n\nIf the format doesn't match these examples, use your judgment to apply the most appropriate structure for \"".data
  ++ format ++ "\".\n\n## Core Principles\n\n- Preserve the speaker's intended meaning and all substantive content\n- Apply formatting that makes the content most useful in the requested format\n- Do not add information not present in the audio\n- If content doesn't fit the requested format well, do your best and note any limitations\n\n## Response Format\n\nYou MUST respond with valid JSON matching this exact structure:\n\n\x7b\n  \"title\": \"A short, descriptive title appropriate for the ".data
  ++ format ++ "\",\n  \"description\": \"A two-sentence summary of the content.\",\n  \"transcript\": \"The transcribed and formatted content as a ".data
  ++ format ++ ".\",\n  \"format_applied\": \"".data
  ++ format ++ "\",\n  \"timestamp\": \"ISO 8601 timestamp (will be filled by system)\",\n  \"timestamp_readable\": \"Human-readable timestamp (will be filled by system)\"\n\x7d\n\nReturn ONLY the JSON object, no additional text or markdown code blocks.".data

-- Helper lemmas ---------------------------------------------------------

lemma mem_of_mem_jsTrim {c : Char} {s : Str} (h : c ∈ jsTrim s) : c ∈ s := by
  unfold jsTrim at h
  rw [List.mem_reverse] at h
  have h2 : c ∈ (s.dropWhile isJsWs).reverse :=
    (List.dropWhile_sublist isJsWs).subset h
  rw [List.mem_reverse] at h2
  exact (List.dropWhile_sublist isJsWs).subset h2

lemma mem_replaceRuns {p : Char → Bool} {rep c : Char} {b : Bool} {s : Str}
    (h : c ∈ replaceRuns p rep b s) : c = rep ∨ (c ∈ s ∧ p c = false) := by
  induction s generalizing b with
  | nil => simp [replaceRuns] at h
  | cons a rest ih =>
    simp only [replaceRuns] at h
    by_cases hpa : p a
    · rw [if_pos hpa] at h
      by_cases hb : b
      · rw [if_pos hb] at h
        rcases ih h with h | ⟨hm, hp⟩
        · exact .inl h
        · exact .inr ⟨List.mem_cons_of_mem a hm, hp⟩
      · rw [if_neg hb] at h
        rcases List.mem_cons.mp h with h | h
        · exact .inl h
        · rcases ih h with h | ⟨hm, hp⟩
          · exact .inl h
          · exact .inr ⟨List.mem_cons_of_mem a hm, hp⟩
    · rw [if_neg hpa] at h
      rcases List.mem_cons.mp h with h | h
      · subst h
        exact .inr ⟨List.mem_cons_self c rest, by simpa using hpa⟩
      · rcases ih h with h | ⟨hm, hp⟩
        · exact .inl h
        · exact .inr ⟨List.mem_cons_of_mem a hm, hp⟩

-- C9 --------------------------------------------------------------------

/-- C9: the save-file slug is the title lower-cased, characters outside
`[\w\s-]` removed, whitespace runs collapsed to single hyphens, hyphen
runs collapsed, truncated to at most 80 characters; in particular
`"Meeting Notes: Q3 Review!"` slugifies to `"meeting-notes-q3-review"`.
Stated as: the concrete example, the 80-character bound for every
title, and that every character of every slug is a kept character
(word character or hyphen) and never whitespace. -/
theorem slugify_correct :
    slugify "Meeting Notes: Q3 Review!".data = "meeting-notes-q3-review".data
    ∧ (∀ t : Str, (slugify t).length ≤ 80)
    ∧ (∀ (t : Str) (c : Char), c ∈ slugify t →
        isSlugKeep c = true ∧ isJsWs c = false) := by
  refine ⟨by decide, fun t => ?_, fun t c hc => ?_⟩
  · simp only [slugify]
    exact List.length_take_le 80 _
  · simp only [slugify] at hc
    have hc1 := List.mem_of_mem_take hc
    have hc2 := mem_of_mem_jsTrim hc1
    rcases mem_replaceRuns hc2 with h | ⟨h3, _⟩
    · subst h; exact ⟨by decide, by decide⟩
    · rcases mem_replaceRuns h3 with h | ⟨h4, hnws⟩
      · subst h; exact ⟨by decide, by decide⟩
      · exact ⟨(List.mem_filter.mp h4).2, hnws⟩

/-- Witness for `slugify_correct` at concrete inputs. -/
theorem slugify_correct_witness :
    slugify "Meeting Notes: Q3 Review!".data = "meeting-notes-q3-review".data
    ∧ (slugify "Hello World".data).length ≤ 80
    ∧ (isSlugKeep 'h' = true ∧ isJsWs 'h' = false) :=
  ⟨slugify_correct.1, slugify_correct.2.1 _,
   slugify_correct.2.2 "Hello World".data 'h' (by decide)⟩

-- C4 --------------------------------------------------------------------

/-- C4: standard prepare passes a natively-accepted file of at most
15 MiB through unchanged (same path, same detected media type, no
ffmpeg spawn), and otherwise — native but above 15 MiB, or non-native
(including `audio/unknown`) at any size — converts it with the
mono/16 kHz/Opus-24k/voip argument list and reports `audio/ogg`; the
natively-accepted set is exactly wav, mp3/mpeg, aiff, aac, ogg, flac. -/
theorem standardPrepare_correct :
    (∀ m : Str, isGeminiNativeFormat m = true ↔
      (m = "audio/wav".data ∨ m = "audio/mp3".data ∨ m = "audio/mpeg".data
       ∨ m = "audio/aiff".data ∨ m = "audio/aac".data ∨ m = "audio/ogg".data
       ∨ m = "audio/flac".data))
    ∧ (∀ (w : AcqWorld) (fc : Str) (fn : Option Str),
        w.acquiredSize ≤ MAX_FILE_SIZE_BYTES →
        (isGeminiNativeFormat (getMimeTypeFromNameOrType fn none) = true →
         w.acquiredSize ≤ DOWNSAMPLE_THRESHOLD_BYTES →
         prepareAudioFromContent w fc fn =
           (.ok ⟨.tempAcquired, getMimeTypeFromNameOrType fn none, true, .tempAcquired⟩,
            [Ev.writeTemp .tempAcquired]))
        ∧ (w.ffmpegExit = some 0 →
           ¬(isGeminiNativeFormat (getMimeTypeFromNameOrType fn none) = true
             ∧ w.acquiredSize ≤ DOWNSAMPLE_THRESHOLD_BYTES) →
           prepareAudioFromContent w fc fn =
             (.ok ⟨.converted, "audio/ogg".data, true, .tempAcquired⟩,
              [Ev.writeTemp .tempAcquired,
               Ev.spawnFfmpeg (opusArgs (pathName .tempAcquired) (pathName .converted))]))) := by
  constructor
  · intro m
    simp [isGeminiNativeFormat, GEMINI_NATIVE_MIMES, List.contains]
  · intro w fc fn hmax
    constructor
    · intro hnat hsmall
      simp [prepareAudioFromContent, Nat.not_lt_of_le hmax, hnat, hsmall]
    · intro hff hnot
      by_cases hnat : isGeminiNativeFormat (getMimeTypeFromNameOrType fn none) = true
      · have hbig : ¬w.acquiredSize ≤ DOWNSAMPLE_THRESHOLD_BYTES := fun hs => hnot ⟨hnat, hs⟩
        simp [prepareAudioFromContent, convertToOggOpus, Nat.not_lt_of_le hmax, hnat, hbig, hff]
      · simp only [Bool.not_eq_true] at hnat
        simp [prepareAudioFromContent, convertToOggOpus, Nat.not_lt_of_le hmax, hnat, hff]

/-- Witness for `standardPrepare_correct`: a 1 MiB `.mp3` passes
through untouched; a 20 MiB `.mp3` and a 1 MiB `.webm` are converted. -/
theorem standardPrepare_correct_witness :
    (isGeminiNativeFormat "audio/mp3".data = true)
    ∧ prepareAudioFromContent
        ⟨1048576, true, 200, none, true, [], some 0, some 0, some 0, [], fun _ => true, fun _ => true⟩
        "QUJD".data (some "note.mp3".data) =
        (.ok ⟨.tempAcquired, "audio/mp3".data, true, .tempAcquired⟩,
         [Ev.writeTemp .tempAcquired])
    ∧ prepareAudioFromContent
        ⟨20971520, true, 200, none, true, [], some 0, some 0, some 0, [], fun _ => true, fun _ => true⟩
        "QUJD".data (some "note.mp3".data) =
        (.ok ⟨.converted, "audio/ogg".data, true, .tempAcquired⟩,
         [Ev.writeTemp .tempAcquired,
          Ev.spawnFfmpeg (opusArgs (pathName .tempAcquired) (pathName .converted))]) := by
  refine ⟨(standardPrepare_correct.1 "audio/mp3".data).mpr (by decide), ?_, ?_⟩
  · have h := (standardPrepare_correct.2
      ⟨1048576, true, 200, none, true, [], some 0, some 0, some 0, [], fun _ => true, fun _ => true⟩
      "QUJD".data (some "note.mp3".data) (by decide)).1 (by decide) (by decide)
    simpa using h
  · have h := (standardPrepare_correct.2
      ⟨20971520, true, 200, none, true, [], some 0, some 0, some 0, [], fun _ => true, fun _ => true⟩
      "QUJD".data (some "note.mp3".data) (by decide)).2 rfl (by decide)
    simpa using h

-- C1 --------------------------------------------------------------------

/-- C1 (amended): supplying zero usable acquisition variants fails with
the InvalidInput error before any network or subprocess activity (the
event list is empty), and the handler's up-front check rejects exactly
the requests with none of file_content / file_url / ssh_host; but
supplying more than one variant does **not** fail — `prepareAudioInput`
dispatches to the first populated variant in the fixed priority order
inline content → remote URL → SSH pull. -/
theorem prepareAudioInput_dispatch :
    ∀ (w : AcqWorld) (p : PrepareAudioParams),
      (truthy p.fileContent = false → truthy p.fileUrl = false →
        ¬(truthy p.sshHost = true ∧ truthy p.sshPath = true) →
        prepareAudioInput w p = (.error .invalidInput, []))
      ∧ (handlerMissingParams p = true ↔
          (truthy p.fileContent = false ∧ truthy p.fileUrl = false
           ∧ truthy p.sshHost = false))
      ∧ (truthy p.fileContent = true →
          prepareAudioInput w p =
            prepareAudioFromContent w (p.fileContent.getD []) p.fileName)
      ∧ (truthy p.fileContent = false → truthy p.fileUrl = true →
          prepareAudioInput w p =
            prepareAudioFromUrl w (p.fileUrl.getD []) p.fileName)
      ∧ (truthy p.fileContent = false → truthy p.fileUrl = false →
          truthy p.sshHost = true → truthy p.sshPath = true →
          prepareAudioInput w p = prepareAudioFromSsh w p) := by
  intro w p
  refine ⟨fun h1 h2 h3 => ?_, ?_, fun h1 => ?_, fun h1 h2 => ?_, fun h1 h2 h3 h4 => ?_⟩
  · have h3' : (truthy p.sshHost && truthy p.sshPath) = false := by
      cases hh : truthy p.sshHost with
      | false => simp
      | true =>
        cases hp : truthy p.sshPath with
        | false => simp
        | true => exact absurd ⟨hh, hp⟩ h3
    simp [prepareAudioInput, h1, h2, h3']
  · simp [handlerMissingParams, Bool.and_eq_true, and_assoc]
  · simp [prepareAudioInput, h1]
  · simp [prepareAudioInput, h1, h2]
  · simp [prepareAudioInput, h1, h2, h3, h4]

/-- Witness for `prepareAudioInput_dispatch` at concrete inputs. -/
theorem prepareAudioInput_dispatch_witness :
    prepareAudioInput
        ⟨100, true, 200, none, true, [], some 0, some 0, some 0, [], fun _ => true, fun _ => true⟩
        {} = (.error .invalidInput, [])
    ∧ handlerMissingParams {} = true
    ∧ prepareAudioInput
        ⟨100, true, 200, none, true, [], some 0, some 0, some 0, [], fun _ => true, fun _ => true⟩
        { fileContent := some "QUJD".data, fileName := some "a.wav".data } =
      prepareAudioFromContent
        ⟨100, true, 200, none, true, [], some 0, some 0, some 0, [], fun _ => true, fun _ => true⟩
        "QUJD".data (some "a.wav".data) := by
  refine ⟨(prepareAudioInput_dispatch _ _).1 (by decide) (by decide) (by decide), ?_, ?_⟩
  · exact (prepareAudioInput_dispatch
      ⟨100, true, 200, none, true, [], some 0, some 0, some 0, [], fun _ => true, fun _ => true⟩
      {}).2.1.mpr (by decide)
  · exact ((prepareAudioInput_dispatch _ _).2.2.1) (by decide)

/-- C1 counterexample: a request populating **two** variants (inline
content and a remote URL) does not fail with InvalidInput — acquisition
proceeds on the inline-content path (the temp-file write happens), so
the claim "more than one populated variant fails before any activity"
is false on the code. -/
theorem prepareAudioInput_multi_variant_no_error :
    (prepareAudioInput
        ⟨100, true, 200, none, true, [], some 0, some 0, some 0, [], fun _ => true, fun _ => true⟩
        { fileContent := some "QUJD".data,
          fileUrl := some "http://example.com/a.wav".data,
          fileName := some "a.wav".data }).1 =
      .ok ⟨.tempAcquired, "audio/wav".data, true, .tempAcquired⟩
    ∧ Ev.writeTemp .tempAcquired ∈
        (prepareAudioInput
          ⟨100, true, 200, none, true, [], some 0, some 0, some 0, [], fun _ => true, fun _ => true⟩
          { fileContent := some "QUJD".data,
            fileUrl := some "http://example.com/a.wav".data,
            fileName := some "a.wav".data }).2 := by
  constructor <;> decide

-- C2 --------------------------------------------------------------------

/-- C2 (amended): in the **standard** strategy all three acquisition
paths apply the 100 MiB gate — the oversized acquired file is unlinked
and the FileTooLarge error reports the size rounded to whole MiB, with
no ffmpeg spawn ever happening on that path (the gate precedes
transcoding) — but the forced-compression and VAD strategies apply no
size gate at all: they succeed (and spawn the transcoder) on files of
any size. -/
theorem sizeGate_standard_only :
    (∀ (w : AcqWorld) (fc : Str) (fn : Option Str),
      w.acquiredSize > MAX_FILE_SIZE_BYTES →
      prepareAudioFromContent w fc fn =
        (.error (.fileTooLarge (jsRoundMiB w.acquiredSize)),
         [Ev.writeTemp .tempAcquired,
          Ev.unlink .tempAcquired (w.unlinkOk .tempAcquired)]))
    ∧ (∀ (w : AcqWorld) (u : Str) (fn : Option Str),
      w.acquiredSize > MAX_FILE_SIZE_BYTES → w.fetchOk = true → w.hasBody = true →
      prepareAudioFromUrl w u fn =
        (.error (.fileTooLarge (jsRoundMiB w.acquiredSize)),
         [Ev.fetchUrl, Ev.writeTemp .tempAcquired,
          Ev.unlink .tempAcquired (w.unlinkOk .tempAcquired)]))
    ∧ (∀ (w : AcqWorld) (p : PrepareAudioParams),
      w.acquiredSize > MAX_FILE_SIZE_BYTES →
      truthy p.sshHost = true → truthy p.sshPath = true → w.scpExit = some 0 →
      prepareAudioFromSsh w p =
        (.error (.fileTooLarge (jsRoundMiB w.acquiredSize)),
         [Ev.spawnScp, Ev.writeTemp .tempAcquired,
          Ev.unlink .tempAcquired (w.unlinkOk .tempAcquired)]))
    ∧ (∀ (w : AcqWorld) (p : PrepareAudioParams),
      truthy p.fileContent = true → w.ffmpegExit = some 0 →
      prepareAudioInputCompressed w p =
        (.ok ⟨.converted, "audio/ogg".data, true, .tempAcquired⟩,
         [Ev.writeTemp .tempAcquired,
          Ev.spawnFfmpeg (opusArgs (pathName .tempAcquired) (pathName .converted))]))
    ∧ (∀ (w : AcqWorld) (p : PrepareAudioParams),
      truthy p.fileContent = true → w.ffmpegExit = some 0 → w.ffmpegVadExit = some 0 →
      (prepareAudioInputWithVad w p).1 =
        .ok ⟨.converted, "audio/ogg".data, true, .tempAcquired⟩) := by
  refine ⟨fun w fc fn hbig => ?_, fun w u fn hbig hok hbody => ?_,
          fun w p hbig hh hp hscp => ?_, fun w p hfc hff => ?_,
          fun w p hfc hff hvf => ?_⟩
  · simp [prepareAudioFromContent, hbig]
  · simp [prepareAudioFromUrl, hok, hbody, hbig]
  · simp [prepareAudioFromSsh, hh, hp, hscp, hbig]
  · simp [prepareAudioInputCompressed, acquireWithoutSizeGate, hfc, convertToOggOpus, hff]
  · by_cases hsegs : w.vadSegments.isEmpty
    · simp [prepareAudioInputWithVad, acquireWithoutSizeGate, hfc, processWithVad,
            convertToVadFormat, hvf, hsegs, convertToOggOpus, hff]
    · simp [prepareAudioInputWithVad, acquireWithoutSizeGate, hfc, processWithVad,
            convertToVadFormat, hvf, hsegs, convertToOggOpus, hff]

/-- Witness for `sizeGate_standard_only`: a 200 MiB inline payload
fails the standard path with `FileTooLarge 200`, while the same
oversized payload sails through the forced-compression and VAD paths. -/
theorem sizeGate_standard_only_witness :
    prepareAudioFromContent
        ⟨209715200, true, 200, none, true, [], some 0, some 0, some 0, [], fun _ => true, fun _ => true⟩
        "QUJD".data (some "big.wav".data) =
      (.error (.fileTooLarge 200),
       [Ev.writeTemp .tempAcquired, Ev.unlink .tempAcquired true])
    ∧ prepareAudioInputCompressed
        ⟨209715200, true, 200, none, true, [], some 0, some 0, some 0, [], fun _ => true, fun _ => true⟩
        { fileContent := some "QUJD".data, fileName := some "big.wav".data } =
      (.ok ⟨.converted, "audio/ogg".data, true, .tempAcquired⟩,
       [Ev.writeTemp .tempAcquired,
        Ev.spawnFfmpeg (opusArgs (pathName .tempAcquired) (pathName .converted))]) := by
  constructor
  · have h := sizeGate_standard_only.1
      ⟨209715200, true, 200, none, true, [], some 0, some 0, some 0, [], fun _ => true, fun _ => true⟩
      "QUJD".data (some "big.wav".data) (by decide)
    simpa using h
  · have h := sizeGate_standard_only.2.2.2.1
      ⟨209715200, true, 200, none, true, [], some 0, some 0, some 0, [], fun _ => true, fun _ => true⟩
      { fileContent := some "QUJD".data, fileName := some "big.wav".data } (by decide) rfl
    simpa using h

/-- C2 counterexample: the claim asserts the gate for **every**
preparation strategy, but a 200 MiB (> 100 MiB) acquired file in the
forced-compression strategy raises no FileTooLarge error — preparation
succeeds and the transcoding subprocess is spawned on the oversized
input. -/
theorem compressed_no_size_gate :
    (prepareAudioInputCompressed
        ⟨209715200, true, 200, none, true, [], some 0, some 0, some 0, [], fun _ => true, fun _ => true⟩
        { fileContent := some "QUJD".data, fileName := some "big.wav".data }).1 =
      .ok ⟨.converted, "audio/ogg".data, true, .tempAcquired⟩
    ∧ Ev.spawnFfmpeg (opusArgs (pathName .tempAcquired) (pathName .converted)) ∈
        (prepareAudioInputCompressed
          ⟨209715200, true, 200, none, true, [], some 0, some 0, some 0, [], fun _ => true, fun _ => true⟩
          { fileContent := some "QUJD".data, fileName := some "big.wav".data }).2 := by
  constructor <;> decide

-- C8 --------------------------------------------------------------------

lemma concatSpeechSegments_eq_intercalate (segs : List (List Int)) :
    concatSpeechSegments segs =
      List.intercalate (List.replicate vadGapSamples 0) segs := by
  induction segs with
  | nil => simp [concatSpeechSegments, List.intercalate]
  | cons a rest ih =>
    cases rest with
    | nil => simp [concatSpeechSegments, List.intercalate]
    | cons b r =>
      rw [concatSpeechSegments, ih]
      simp [List.intercalate, List.intersperse, List.append_assoc]

lemma concatSpeechSegments_length (segs : List (List Int)) (h : segs ≠ []) :
    (concatSpeechSegments segs).length =
      (segs.map List.length).sum + (segs.length - 1) * vadGapSamples := by
  induction segs with
  | nil => exact absurd rfl h
  | cons a rest ih =>
    cases rest with
    | nil => simp [concatSpeechSegments]
    | cons b r =>
      rw [concatSpeechSegments]
      simp only [List.length_append, List.length_replicate,
        ih (by simp), List.map_cons, List.sum_cons, List.length_cons,
        Nat.add_sub_cancel]
      ring

/-- C8: when the VAD pass yields zero speech spans, `processWithVad`
resolves with the original input path (no cleaned file is written);
with at least one span, it writes the spans concatenated in original
order with a 1600-sample (100 ms at 16 kHz) run of zero samples
between consecutive spans — i.e. `List.intercalate` with the silence
gap — whose total length is the sum of the span lengths plus one gap
per adjacent pair. -/
theorem processWithVad_correct :
    ∀ (w : AcqWorld) (input : TPath), w.ffmpegVadExit = some 0 →
      (w.vadSegments = [] →
        (processWithVad w input).1 = .ok ⟨input, none⟩
        ∧ Ev.writeTemp .vadCleaned ∉ (processWithVad w input).2)
      ∧ (w.vadSegments ≠ [] →
        (processWithVad w input).1 =
          .ok ⟨.vadCleaned,
               some (List.intercalate (List.replicate vadGapSamples 0) w.vadSegments)⟩
        ∧ (concatSpeechSegments w.vadSegments).length =
            (w.vadSegments.map List.length).sum
              + (w.vadSegments.length - 1) * vadGapSamples) := by
  intro w input hvf
  constructor
  · intro hsegs
    constructor
    · simp [processWithVad, convertToVadFormat, hvf, hsegs]
    · simp [processWithVad, convertToVadFormat, hvf, hsegs, vadFormatArgs]
  · intro hsegs
    have hne : w.vadSegments.isEmpty = false := by
      cases hs : w.vadSegments with
      | nil => exact absurd hs hsegs
      | cons a r => simp [hs]
    constructor
    · simp [processWithVad, convertToVadFormat, hvf, hne,
           concatSpeechSegments_eq_intercalate]
    · exact concatSpeechSegments_length _ hsegs

/-- Witness for `processWithVad_correct`: zero spans fall back to the
input path; two spans are spliced with one 1600-sample gap. -/
theorem processWithVad_correct_witness :
    ((processWithVad
        ⟨100, true, 200, none, true, [], some 0, some 0, some 0, [], fun _ => true, fun _ => true⟩
        .tempAcquired).1 = .ok ⟨.tempAcquired, none⟩)
    ∧ ((processWithVad
        ⟨100, true, 200, none, true, [], some 0, some 0, some 0, [[1, 2], [3]], fun _ => true, fun _ => true⟩
        .tempAcquired).1 =
        .ok ⟨.vadCleaned,
             some (List.intercalate (List.replicate vadGapSamples 0) [[1, 2], [3]])⟩)
    ∧ (concatSpeechSegments [[1, 2], [3]]).length = 3 + 1 * vadGapSamples := by
  refine ⟨?_, ?_, ?_⟩
  · exact ((processWithVad_correct _ .tempAcquired rfl).1 rfl).1
  · exact ((processWithVad_correct
      ⟨100, true, 200, none, true, [], some 0, some 0, some 0, [[1, 2], [3]], fun _ => true, fun _ => true⟩
      .tempAcquired rfl).2 (by decide)).1
  · have h := ((processWithVad_correct
      ⟨100, true, 200, none, true, [], some 0, some 0, some 0, [[1, 2], [3]], fun _ => true, fun _ => true⟩
      .tempAcquired rfl).2 (by decide)).2
    simpa using h

-- C3 --------------------------------------------------------------------

/-- C3 counterexample: a fully successful invocation whose parsed JSON
reply carries `format_applied = "email"` still returns a result with no
`format_applied` field — the five-field object literal drops it. -/
theorem formatApplied_dropped_counterexample :
    (transcribeAudioRun
        { prepareResult := .ok ⟨.tempAcquired, "audio/mp3".data, true, .tempAcquired⟩,
          prepareEvents := [Ev.writeTemp .tempAcquired],
          uploadResult := .ok "files/abc".data,
          pollFailed := false,
          generateResult := .ok (some "reply".data),
          jsonParse := fun _ => some ⟨some "T".data, some "D".data, some "X".data, some "email".data⟩,
          ts := ⟨"2025-01-01T00:00:00Z".data, "1 Jan 2025 00:00".data⟩,
          fileExists := fun _ => true, unlinkOk := fun _ => true, remoteDeleteOk := true }
        { fileContent := some "QUJD".data }).1 =
      .ok { title := "T".data, description := "D".data, transcript := "X".data,
            timestamp := "2025-01-01T00:00:00Z".data,
            timestamp_readable := "1 Jan 2025 00:00".data,
            formatApplied := none } := by
  decide

set_option maxRecDepth 8192 in
/-- C3 (amended): the format-templated prompt does instruct the model
to emit a `format_applied` key (the literal occurs in the generated
prompt for every format label), but the structured result never carries
it: the response constructor yields `formatApplied = none` for every
parsed reply. -/
theorem formatApplied_never_returned :
    (∀ (parsed : ParsedFields) (text : Str) (ts : Timestamps),
      (buildResponse parsed text ts).formatApplied = none)
    ∧ (∀ fmt : Str, ∃ l r : Str,
        generateFormatPrompt fmt = l ++ "format_applied".data ++ r) := by
  constructor
  · intro parsed text ts
    rfl
  · intro fmt
    have h6 : ".\",\n  \"format_applied\": \"".data
        = ".\",\n  \"".data ++ "format_applied".data ++ "\": \"".data := by decide
    refine ⟨"The audio binary provided contains a voice note dictated by the user. Your task is to transcribe this content and format it as: **".data ++ fmt ++ "**\n\n## Instructions\n\n1. **Transcribe the audio content** - Capture all meaningful content from the audio\n2. **Apply light cleanup** - Remove filler words (\"um,\" \"uh,\" \"like\"), honor verbal corrections, add punctuation\n3. **Format the output** as a ".data ++ fmt ++ " - Structure the transcribed content appropriately for this format\n\n## Format-Specific Guidance\n\nBased on the requested format \"".data ++ fmt ++ "\", apply appropriate structural conventions:\n\n- **Email**: Include a subject line suggestion, greeting, body paragraphs, and sign-off placeholder\n- **To-do list / Task list**: Extract actionable items as a bulleted or numbered list with checkboxes\n- **Meeting notes**: Include attendees (if mentioned), date, key discussion points, action items, and decisions\n- **Technical document**: Use proper headings, sections, code formatting if applicable\n- **Blog post**: Include a compelling title, introduction, body sections with subheadings, conclusion\n- **Summary / Executive summary**: Condense to key points, main takeaways, and recommendations\n- **Letter**: Formal letter structure with date, recipient, salutation, body, closing\n- **Report**: Structured sections with findings, analysis, and conclusions\n- **Script / Dialogue**: Format with speaker labels and stage directions if applicable\n- **Outline**: Hierarchical structure with main topics and subtopics\n\nIf the format doesn't match these examples, use your judgment to apply the most appropriate structure for \"".data ++ fmt ++ "\".\n\n## Core Principles\n\n- Preserve the speaker's intended meaning and all substantive content\n- Apply formatting that makes the content most useful in the requested format\n- Do not add information not present in the audio\n- If content doesn't fit the requested format well, do your best and note any limitations\n\n## Response Format\n\nYou MUST respond with valid JSON matching this exact structure:\n\n\x7b\n  \"title\": \"A short, descriptive title appropriate for the ".data ++ fmt ++ "\",\n  \"description\": \"A two-sentence summary of the content.\",\n  \"transcript\": \"The transcribed and formatted content as a ".data ++ fmt ++ ".\",\n  \"".data,
           "\": \"".data ++ fmt ++ "\",\n  \"timestamp\": \"ISO 8601 timestamp (will be filled by system)\",\n  \"timestamp_readable\": \"Human-readable timestamp (will be filled by system)\"\n\x7d\n\nReturn ONLY the JSON object, no additional text or markdown code blocks.".data, ?_⟩
    unfold generateFormatPrompt
    rw [h6]
    simp only [List.append_assoc]

-- C5 --------------------------------------------------------------------

lemma isPrefixOf_append_self : ∀ x y : Str, x.isPrefixOf (x ++ y) = true
  | [], _ => by simp [List.isPrefixOf]
  | a :: t, y => by
    simp only [List.cons_append, List.isPrefixOf, beq_self_eq_true, Bool.true_and]
    exact isPrefixOf_append_self t y

lemma isSuffixOf_append_self (a l : Str) : l.isSuffixOf (a ++ l) = true := by
  unfold List.isSuffixOf
  rw [List.reverse_append]
  exact isPrefixOf_append_self l.reverse a.reverse

lemma isPrefixOf_of_append_eq_true :
    ∀ (x y s : Str), (x ++ y).isPrefixOf s = true → x.isPrefixOf s = true
  | [], _, _, _ => by simp [List.isPrefixOf]
  | a :: t, y, s, h => by
    cases s with
    | nil => simp [List.isPrefixOf] at h
    | cons b s2 =>
      simp only [List.cons_append, List.isPrefixOf, Bool.and_eq_true] at h ⊢
      exact ⟨h.1, isPrefixOf_of_append_eq_true t y s2 h.2⟩

lemma dropWhile_append_of_nows {p : Char → Bool} {s : Str}
    (h : s.dropWhile p = s) (hne : s ≠ []) (t : Str) :
    (s ++ t).dropWhile p = s ++ t := by
  cases s with
  | nil => exact absurd rfl hne
  | cons a l =>
    have ha : p a = false := by
      by_contra hpa
      rw [Bool.not_eq_false] at hpa
      have hdw : (a :: l).dropWhile p = l.dropWhile p := by
        simp [List.dropWhile_cons, hpa]
      have hlen : (l.dropWhile p).length ≤ l.length :=
        (List.dropWhile_sublist p).length_le
      rw [hdw] at h
      have hl : (l.dropWhile p).length = l.length + 1 := by
        rw [h]; simp
      omega
    simp [List.cons_append, List.dropWhile_cons, ha]

lemma jsTrim_of_firm_ends {pre suf : Str} (s : Str)
    (hpre : pre ≠ []) (hsufr : suf.reverse ≠ [])
    (hpr : pre.dropWhile isJsWs = pre)
    (hsr : suf.reverse.dropWhile isJsWs = suf.reverse) :
    jsTrim (pre ++ (s ++ suf)) = pre ++ (s ++ suf) := by
  unfold jsTrim
  rw [dropWhile_append_of_nows hpr hpre]
  have hrev : (pre ++ (s ++ suf)).reverse
      = suf.reverse ++ (s.reverse ++ pre.reverse) := by
    simp [List.reverse_append]
  rw [hrev, dropWhile_append_of_nows hsr hsufr, ← hrev, List.reverse_reverse]

lemma jsTrim_newline_ends {s : Str} (hne : s ≠ [])
    (h1 : s.dropWhile isJsWs = s) (h2 : s.reverse.dropWhile isJsWs = s.reverse) :
    jsTrim ('\n' :: (s ++ ['\n'])) = s := by
  unfold jsTrim
  have e1 : ('\n' :: (s ++ ['\n'])).dropWhile isJsWs = s ++ ['\n'] := by
    rw [List.dropWhile_cons]
    simp only [show isJsWs '\n' = true from rfl, if_true]
    exact dropWhile_append_of_nows h1 hne ['\n']
  rw [e1]
  have e2 : (s ++ ['\n']).reverse = '\n' :: s.reverse := by simp
  rw [e2, List.dropWhile_cons]
  simp only [show isJsWs '\n' = true from rfl, if_true]
  rw [h2, List.reverse_reverse]

lemma stripCodeFences_json_fence {s : Str} (hne : s ≠ [])
    (h1 : s.dropWhile isJsWs = s) (h2 : s.reverse.dropWhile isJsWs = s.reverse) :
    stripCodeFences ("```json\n".data ++ (s ++ "\n```".data)) = s := by
  unfold stripCodeFences
  rw [jsTrim_of_firm_ends s (by decide) (by decide) (by decide) (by decide)]
  have e1 : stripLeadingFence ("```json\n".data ++ (s ++ "\n```".data))
      = '\n' :: (s ++ "\n```".data) := by
    unfold stripLeadingFence
    rw [if_pos (isPrefixOf_of_append_eq_true "```json".data ['\n'] _
      (by rw [show "```json".data ++ ['\n'] = "```json\n".data from rfl]
          exact isPrefixOf_append_self "```json\n".data (s ++ "\n```".data)))]
    rfl
  rw [e1]
  have hsplit : '\n' :: (s ++ "\n```".data)
      = ('\n' :: (s ++ ['\n'])) ++ "```".data := by
    rw [show "\n```".data = ['\n'] ++ "```".data from rfl, ← List.append_assoc,
       ← List.cons_append]
  have e2 : stripTrailingFence ('\n' :: (s ++ "\n```".data))
      = '\n' :: (s ++ ['\n']) := by
    unfold stripTrailingFence
    rw [hsplit, if_pos (isSuffixOf_append_self _ _)]
    rw [List.length_append, show ("```".data : Str).length = 3 from rfl,
       Nat.add_sub_cancel]
    rw [show ('\n' :: (s ++ ['\n'])).length = ('\n' :: (s ++ ['\n'])).length + 0 from rfl,
       List.take_append 0]
    simp
  rw [e2]
  exact jsTrim_newline_ends hne h1 h2

lemma stripCodeFences_bare_fence {s : Str} (hne : s ≠ [])
    (h1 : s.dropWhile isJsWs = s) (h2 : s.reverse.dropWhile isJsWs = s.reverse) :
    stripCodeFences ("```\n".data ++ (s ++ "\n```".data)) = s := by
  unfold stripCodeFences
  rw [jsTrim_of_firm_ends s (by decide) (by decide) (by decide) (by decide)]
  have hjson : "```json".data.isPrefixOf ("```\n".data ++ (s ++ "\n```".data)) = false := by
    by_contra hcon
    rw [Bool.not_eq_false] at hcon
    simp only [show ("```\n".data ++ (s ++ "\n```".data))
        = '`' :: '`' :: '`' :: '\n' :: (s ++ "\n```".data) from rfl,
      List.isPrefixOf, Bool.and_eq_true, beq_iff_eq] at hcon
    exact absurd hcon.2.2.2.1 (by decide)
  have e1 : stripLeadingFence ("```\n".data ++ (s ++ "\n```".data))
      = '\n' :: (s ++ "\n```".data) := by
    unfold stripLeadingFence
    rw [if_neg (by simp [hjson]),
       if_pos (isPrefixOf_of_append_eq_true "```".data ['\n'] _
        (by rw [show "```".data ++ ['\n'] = "```\n".data from rfl]
            exact isPrefixOf_append_self "```\n".data (s ++ "\n```".data)))]
    rfl
  rw [e1]
  have hsplit : '\n' :: (s ++ "\n```".data)
      = ('\n' :: (s ++ ['\n'])) ++ "```".data := by
    rw [show "\n```".data = ['\n'] ++ "```".data from rfl, ← List.append_assoc,
       ← List.cons_append]
  have e2 : stripTrailingFence ('\n' :: (s ++ "\n```".data))
      = '\n' :: (s ++ ['\n']) := by
    unfold stripTrailingFence
    rw [hsplit, if_pos (isSuffixOf_append_self _ _)]
    rw [List.length_append, show ("```".data : Str).length = 3 from rfl,
       Nat.add_sub_cancel]
    rw [show ('\n' :: (s ++ ['\n'])).length = ('\n' :: (s ++ ['\n'])).length + 0 from rfl,
       List.take_append 0]
    simp
  rw [e2]
  exact jsTrim_newline_ends hne h1 h2

lemma stripCodeFences_unfenced {s : Str}
    (h1 : s.dropWhile isJsWs = s) (h2 : s.reverse.dropWhile isJsWs = s.reverse)
    (hp : "```".data.isPrefixOf s = false)
    (hs : "```".data.isSuffixOf s = false) :
    stripCodeFences s = s := by
  have htrim : jsTrim s = s := by
    unfold jsTrim
    rw [h1, h2, List.reverse_reverse]
  unfold stripCodeFences
  rw [htrim]
  have hjson : "```json".data.isPrefixOf s = false := by
    by_contra hcon
    rw [Bool.not_eq_false] at hcon
    have := isPrefixOf_of_append_eq_true "```".data "json".data s
      (by rw [show "```".data ++ "json".data = "```json".data from rfl]; exact hcon)
    rw [this] at hp
    exact absurd hp (by decide)
  have e1 : stripLeadingFence s = s := by
    unfold stripLeadingFence
    rw [if_neg (by simp [hjson]), if_neg (by simp [hp])]
  rw [e1]
  have e2 : stripTrailingFence s = s := by
    unfold stripTrailingFence
    rw [if_neg (by simp [hs])]
  rw [e2, htrim]

/-- C5: the response parser is total (a parse failure is absorbed, never
re-thrown): a JSON object wrapped in a ```` ```json ```` fence, the same
object in a bare ```` ``` ```` fence, and the unwrapped object all parse
to the same structured fields; and whenever JSON parsing of the cleaned
text fails, the result is the fixed fallback — title `"Voice Note"`,
description `"Transcribed voice note."`, transcript the entire original
input verbatim.  A "JSON object" is any nonempty text without
surrounding whitespace that neither starts nor ends with a fence. -/
theorem parseJsonResponse_correct :
    (∀ (jsonParse : Str → Option ParsedFields) (s : Str) (v : ParsedFields),
      s ≠ [] → s.dropWhile isJsWs = s → s.reverse.dropWhile isJsWs = s.reverse →
      "```".data.isPrefixOf s = false → "```".data.isSuffixOf s = false →
      jsonParse s = some v →
      parseJsonResponse jsonParse ("```json\n".data ++ (s ++ "\n```".data)) = v
      ∧ parseJsonResponse jsonParse ("```\n".data ++ (s ++ "\n```".data)) = v
      ∧ parseJsonResponse jsonParse s = v)
    ∧ (∀ (jsonParse : Str → Option ParsedFields) (t : Str),
      jsonParse (stripCodeFences t) = none →
      parseJsonResponse jsonParse t =
        { title := some "Voice Note".data,
          description := some "Transcribed voice note.".data,
          transcript := some t, formatApplied := none }) := by
  constructor
  · intro jsonParse s v hne h1 h2 hp hs hv
    refine ⟨?_, ?_, ?_⟩
    · unfold parseJsonResponse
      rw [stripCodeFences_json_fence hne h1 h2]
      simp only [hv]
    · unfold parseJsonResponse
      rw [stripCodeFences_bare_fence hne h1 h2]
      simp only [hv]
    · unfold parseJsonResponse
      rw [stripCodeFences_unfenced h1 h2 hp hs]
      simp only [hv]
  · intro jsonParse t hnone
    unfold parseJsonResponse
    simp only [hnone]

/-- Witness for `parseJsonResponse_correct`: the object
`{"title":"T"}` parses identically in all three wrappings under a
concrete parse function, and a non-JSON reply falls back to the
verbatim transcript. -/
theorem parseJsonResponse_correct_witness :
    (parseJsonResponse
        (fun c => if c = "\x7b\"title\":\"T\"\x7d".data
          then some ⟨some "T".data, none, none, none⟩ else none)
        ("```json\n".data ++ ("\x7b\"title\":\"T\"\x7d".data ++ "\n```".data)) =
      ⟨some "T".data, none, none, none⟩)
    ∧ (parseJsonResponse
        (fun _ => none) "Sorry, I cannot process this".data =
      { title := some "Voice Note".data,
        description := some "Transcribed voice note.".data,
        transcript := some "Sorry, I cannot process this".data,
        formatApplied := none }) := by
  constructor
  · exact (parseJsonResponse_correct.1
      (fun c => if c = "\x7b\"title\":\"T\"\x7d".data
        then some ⟨some "T".data, none, none, none⟩ else none)
      "\x7b\"title\":\"T\"\x7d".data ⟨some "T".data, none, none, none⟩
      (by decide) (by decide) (by decide) (by decide) (by decide) (by decide)).1
  · exact parseJsonResponse_correct.2 (fun _ => none)
      "Sorry, I cannot process this".data (by decide)

-- C6 / C7 helper: the prepare stage emits only pipeline events --------

/-- Acquisition/transcode effects, as opposed to the `finally` block's
cleanup and remote-delete effects. -/
def isPipelineEv : Ev → Bool
  | .cleanupCall => false
  | .remoteDelete _ _ => false
  | .writeTemp _ => true
  | .fetchUrl => true
  | .spawnScp => true
  | .spawnFfmpeg _ => true
  | .unlink _ _ => true

lemma convertToOggOpus_events (w : AcqWorld) (i : TPath) :
    (convertToOggOpus w i).2
      = [Ev.spawnFfmpeg (opusArgs (pathName i) (pathName .converted))] := by
  unfold convertToOggOpus
  split <;> rfl

lemma convertToVadFormat_events (w : AcqWorld) (i : TPath) :
    (convertToVadFormat w i).2
      = [Ev.spawnFfmpeg (vadFormatArgs (pathName i) (pathName .vadInput))] := by
  unfold convertToVadFormat
  split <;> rfl


lemma acquireWithoutSizeGate_pipeline (w : AcqWorld) (p : PrepareAudioParams) :
    ∀ e ∈ (acquireWithoutSizeGate w p).2, isPipelineEv e = true := by
  intro e he
  unfold acquireWithoutSizeGate at he
  rcases hscp : w.scpExit with _ | c
  all_goals rw [hscp] at he
  all_goals rcases e <;> first
    | rfl
    | (repeat' split at he
       all_goals simp at he)

lemma prepareAudioFromContent_pipeline (w : AcqWorld) (fc : Str) (fn : Option Str) :
    ∀ e ∈ (prepareAudioFromContent w fc fn).2, isPipelineEv e = true := by
  intro e he
  rcases hc : convertToOggOpus w .tempAcquired with ⟨r, evs2⟩
  have hevs2 : evs2 = [Ev.spawnFfmpeg (opusArgs (pathName .tempAcquired) (pathName .converted))] := by
    have h := convertToOggOpus_events w .tempAcquired
    rw [hc] at h
    exact h
  unfold prepareAudioFromContent at he
  rw [hc] at he
  subst hevs2
  rcases r with err | pth <;>
    rcases e <;> first
      | rfl
      | (try simp only [] at he
         repeat' split at he
         all_goals simp at he)

lemma prepareAudioFromUrl_pipeline (w : AcqWorld) (u : Str) (fn : Option Str) :
    ∀ e ∈ (prepareAudioFromUrl w u fn).2, isPipelineEv e = true := by
  intro e he
  rcases hc : convertToOggOpus w .tempAcquired with ⟨r, evs2⟩
  have hevs2 : evs2 = [Ev.spawnFfmpeg (opusArgs (pathName .tempAcquired) (pathName .converted))] := by
    have h := convertToOggOpus_events w .tempAcquired
    rw [hc] at h
    exact h
  unfold prepareAudioFromUrl at he
  rw [hc] at he
  subst hevs2
  rcases r with err | pth <;>
    rcases e <;> first
      | rfl
      | (try simp only [] at he
         repeat' split at he
         all_goals simp at he)

set_option maxHeartbeats 1000000 in
lemma prepareAudioFromSsh_pipeline (w : AcqWorld) (p : PrepareAudioParams) :
    ∀ e ∈ (prepareAudioFromSsh w p).2, isPipelineEv e = true := by
  intro e he
  rcases hc : convertToOggOpus w .tempAcquired with ⟨r, evs2⟩
  have hevs2 : evs2 = [Ev.spawnFfmpeg (opusArgs (pathName .tempAcquired) (pathName .converted))] := by
    have h := convertToOggOpus_events w .tempAcquired
    rw [hc] at h
    exact h
  unfold prepareAudioFromSsh at he
  rw [hc] at he
  subst hevs2
  rcases hscp : w.scpExit with _ | c <;> rw [hscp] at he <;>
    rcases r with err | pth <;>
    rcases e <;> first
      | rfl
      | (try simp only [] at he
         repeat' split at he
         all_goals simp at he)

lemma prepareAudioInput_pipeline (w : AcqWorld) (p : PrepareAudioParams) :
    ∀ e ∈ (prepareAudioInput w p).2, isPipelineEv e = true := by
  intro e he
  unfold prepareAudioInput at he
  split_ifs at he
  · exact prepareAudioFromContent_pipeline _ _ _ e he
  · exact prepareAudioFromUrl_pipeline _ _ _ e he
  · exact prepareAudioFromSsh_pipeline _ _ e he
  · simp at he

lemma prepareAudioInputCompressed_pipeline (w : AcqWorld) (p : PrepareAudioParams) :
    ∀ e ∈ (prepareAudioInputCompressed w p).2, isPipelineEv e = true := by
  intro e he
  rcases ha : acquireWithoutSizeGate w p with ⟨ra, evsa⟩
  have hva : ∀ e2 ∈ evsa, isPipelineEv e2 = true := by
    intro e2 he2
    have h := acquireWithoutSizeGate_pipeline w p e2
    rw [ha] at h
    exact h he2
  rcases hc : convertToOggOpus w .tempAcquired with ⟨r, evs2⟩
  have hevs2 : evs2 = [Ev.spawnFfmpeg (opusArgs (pathName .tempAcquired) (pathName .converted))] := by
    have h := convertToOggOpus_events w .tempAcquired
    rw [hc] at h
    exact h
  unfold prepareAudioInputCompressed at he
  rw [ha] at he
  subst hevs2
  rcases ra with err | u
  · exact hva e he
  · rw [hc] at he
    rcases r with err | pth <;>
      (simp only [] at he
       rcases List.mem_append.mp he with h2 | h2
       · exact hva e h2
       · simp only [List.mem_cons, List.not_mem_nil, or_false] at h2
         subst h2
         rfl)

lemma processWithVad_pipeline (w : AcqWorld) (i : TPath) :
    ∀ e ∈ (processWithVad w i).2, isPipelineEv e = true := by
  intro e he
  rcases hv : convertToVadFormat w i with ⟨r, evs2⟩
  have hevs2 : evs2 = [Ev.spawnFfmpeg (vadFormatArgs (pathName i) (pathName .vadInput))] := by
    have h := convertToVadFormat_events w i
    rw [hv] at h
    exact h
  unfold processWithVad at he
  rw [hv] at he
  subst hevs2
  rcases r with err | pth <;>
    rcases e <;> first
      | rfl
      | (try simp only [] at he
         repeat' split at he
         all_goals simp at he)

lemma prepareAudioInputWithVad_pipeline (w : AcqWorld) (p : PrepareAudioParams) :
    ∀ e ∈ (prepareAudioInputWithVad w p).2, isPipelineEv e = true := by
  intro e he
  rcases ha : acquireWithoutSizeGate w p with ⟨ra, evsa⟩
  have hva : ∀ e2 ∈ evsa, isPipelineEv e2 = true := by
    intro e2 he2
    have h := acquireWithoutSizeGate_pipeline w p e2
    rw [ha] at h
    exact h he2
  rcases hvp : processWithVad w .tempAcquired with ⟨rv, evs2⟩
  have hv2 : ∀ e2 ∈ evs2, isPipelineEv e2 = true := by
    intro e2 he2
    have h := processWithVad_pipeline w .tempAcquired e2
    rw [hvp] at h
    exact h he2
  unfold prepareAudioInputWithVad at he
  rw [ha, hvp] at he
  rcases ra with err | u
  · exact hva e he
  · rcases rv with err | vout
    · simp only [] at he
      rcases List.mem_append.mp he with h2 | h2
      · exact hva e h2
      · exact hv2 e h2
    · simp only [] at he
      rcases hc : convertToOggOpus w vout.outPath with ⟨r, evs3⟩
      have hevs3 : evs3 = [Ev.spawnFfmpeg (opusArgs (pathName vout.outPath) (pathName .converted))] := by
        have h := convertToOggOpus_events w vout.outPath
        rw [hc] at h
        exact h
      rw [hc] at he
      subst hevs3
      rcases r with err | pth
      · simp only [] at he
        rcases List.mem_append.mp he with h2 | h2
        · rcases List.mem_append.mp h2 with h3 | h3
          · exact hva e h3
          · exact hv2 e h3
        · simp only [List.mem_cons, List.not_mem_nil, or_false] at h2
          subst h2
          rfl
      · simp only [] at he
        split at he
        all_goals
          rcases List.mem_append.mp he with h2 | h2
        · rcases List.mem_append.mp h2 with h3 | h3
          · rcases List.mem_append.mp h3 with h4 | h4
            · exact hva e h4
            · exact hv2 e h4
          · simp only [List.mem_cons, List.not_mem_nil, or_false] at h3
            subst h3
            rfl
        · simp only [List.mem_cons, List.not_mem_nil, or_false] at h2
          subst h2
          rfl
        · rcases List.mem_append.mp h2 with h3 | h3
          · rcases List.mem_append.mp h3 with h4 | h4
            · exact hva e h4
            · exact hv2 e h4
          · simp only [List.mem_cons, List.not_mem_nil, or_false] at h3
            subst h3
            rfl
        · simp at h2

lemma cleanupCall_not_mem_cleanupTempFiles (fe ul : TPath → Bool) (info : PreparedAudioInfo) :
    Ev.cleanupCall ∉ cleanupTempFiles fe ul info := by
  unfold cleanupTempFiles
  split_ifs <;> simp

lemma cleanupTempFiles_only_unlinks (fe ul : TPath → Bool) (info : PreparedAudioInfo) :
    ∀ e ∈ cleanupTempFiles fe ul info, ∃ q b, e = Ev.unlink q b := by
  intro e he
  unfold cleanupTempFiles at he
  split_ifs at he <;>
    simp only [List.mem_append, List.mem_cons, List.not_mem_nil, or_false, false_or] at he <;>
    first
    | (rcases he with rfl | rfl
       · exact ⟨_, _, rfl⟩
       · exact ⟨_, _, rfl⟩)
    | (rcases he with rfl; exact ⟨_, _, rfl⟩)

/-- Characterisation of one invocation's event list when a
`PreparedAudioInfo` was constructed: the prepare-stage events, then
exactly one `cleanupCall` followed by the cleanup unlinks, then a
possibly-empty remote-delete tail. -/
lemma transcribeAudioRun_events_ok (w : RunWorld) (p : PrepareAudioParams)
    (info : PreparedAudioInfo)
    (hvar : (!truthy p.fileContent && !truthy p.fileUrl && !truthy p.sshHost) = false)
    (hprep : w.prepareResult = .ok info) :
    ∃ tail : List Ev,
      (transcribeAudioRun w p).2 =
        w.prepareEvents ++ (Ev.cleanupCall :: cleanupTempFiles w.fileExists w.unlinkOk info) ++ tail
      ∧ ∀ e ∈ tail, ∃ n b, e = Ev.remoteDelete n b := by
  have hcond : ¬((!truthy p.fileContent && !truthy p.fileUrl && !truthy p.sshHost) = true) := by
    simp [hvar]
  have htail : ∀ n : Str, ∀ e ∈ [Ev.remoteDelete n w.remoteDeleteOk], ∃ n2 b, e = Ev.remoteDelete n2 b := by
    intro n e he
    simp only [List.mem_cons, List.not_mem_nil, or_false] at he
    subst he
    exact ⟨_, _, rfl⟩
  unfold transcribeAudioRun
  rw [if_neg hcond, hprep]
  rcases hup : w.uploadResult with m | name
  · refine ⟨[], ?_, by simp⟩
    simp [finallyEvents]
  · cases hpoll : w.pollFailed
    · rcases hgen : w.generateResult with m2 | t
      · refine ⟨[Ev.remoteDelete name w.remoteDeleteOk], ?_, htail name⟩
        simp [finallyEvents, List.append_assoc]
      · by_cases htext : (t.getD []).isEmpty
        · refine ⟨[Ev.remoteDelete name w.remoteDeleteOk], ?_, htail name⟩
          simp [finallyEvents, htext, List.append_assoc]
        · refine ⟨[Ev.remoteDelete name w.remoteDeleteOk], ?_, htail name⟩
          simp [finallyEvents, htext, List.append_assoc]
    · refine ⟨[Ev.remoteDelete name w.remoteDeleteOk], ?_, htail name⟩
      simp [finallyEvents, List.append_assoc]

/-- The returned value (result or error) never depends on the outcomes
of the best-effort deletions: unlink results and the remote-delete
result are swallowed. -/
lemma run_result_ignores_deletion_outcomes (w1 w2 : RunWorld) (p : PrepareAudioParams)
    (hpr : w1.prepareResult = w2.prepareResult)
    (hur : w1.uploadResult = w2.uploadResult)
    (hpf : w1.pollFailed = w2.pollFailed)
    (hgr : w1.generateResult = w2.generateResult)
    (hjp : w1.jsonParse = w2.jsonParse)
    (hts : w1.ts = w2.ts) :
    (transcribeAudioRun w1 p).1 = (transcribeAudioRun w2 p).1 := by
  unfold transcribeAudioRun
  rw [← hpr, ← hur, ← hpf, ← hgr, ← hjp, ← hts]
  split
  · rfl
  · rcases hb : w1.prepareResult with e | info
    · rfl
    · rcases hu : w1.uploadResult with m | n
      · rfl
      · cases hf : w1.pollFailed
        · rcases hg : w1.generateResult with m2 | t
          · rfl
          · simp only []
            by_cases ht : (t.getD []).isEmpty = true
            · rw [if_pos ht, if_pos ht]
              rfl
            · rw [if_neg ht, if_neg ht]
              rfl
        · rfl

-- C6 --------------------------------------------------------------------

/-- C6: whenever a `PreparedAudioInfo` was constructed, the cleanup
routine runs exactly once per invocation on every exit path (the world
quantifies over upload failure, terminal-FAILED polling, generation
failure, empty text, and success alike): the event list counts exactly
one `cleanupCall`; the processed path is unlink-attempted when cleanup
is required (and the file exists), the source path additionally exactly
when it differs; and neither unlink outcomes nor the remote-delete
outcome ever change the returned result. -/
theorem cleanup_exactly_once (w : RunWorld) (p : PrepareAudioParams)
    (info : PreparedAudioInfo)
    (hvar : (!truthy p.fileContent && !truthy p.fileUrl && !truthy p.sshHost) = false)
    (hprep : w.prepareResult = .ok info)
    (hpipe : ∀ e ∈ w.prepareEvents, isPipelineEv e = true) :
    ((transcribeAudioRun w p).2.count Ev.cleanupCall = 1)
    ∧ (info.needsCleanup = true → w.fileExists info.processedPath = true →
        Ev.unlink info.processedPath (w.unlinkOk info.processedPath)
          ∈ (transcribeAudioRun w p).2)
    ∧ (info.needsCleanup = true → info.originalPath ≠ info.processedPath →
        w.fileExists info.originalPath = true →
        Ev.unlink info.originalPath (w.unlinkOk info.originalPath)
          ∈ (transcribeAudioRun w p).2)
    ∧ (info.originalPath = info.processedPath →
        cleanupTempFiles w.fileExists w.unlinkOk info =
          if info.needsCleanup && w.fileExists info.processedPath
          then [Ev.unlink info.processedPath (w.unlinkOk info.processedPath)]
          else [])
    ∧ (∀ (u1 u2 : TPath → Bool) (d1 d2 : Bool),
        (transcribeAudioRun { w with unlinkOk := u1, remoteDeleteOk := d1 } p).1
          = (transcribeAudioRun { w with unlinkOk := u2, remoteDeleteOk := d2 } p).1) := by
  obtain ⟨tail, hevents, htail⟩ := transcribeAudioRun_events_ok w p info hvar hprep
  have hme : Ev.cleanupCall :: cleanupTempFiles w.fileExists w.unlinkOk info
      ⊆ (transcribeAudioRun w p).2 := by
    rw [hevents]
    intro x hx
    exact List.mem_append.mpr (.inl (List.mem_append.mpr (.inr hx)))
  refine ⟨?_, fun hnc hex => ?_, fun hnc hne hex => ?_, fun heq => ?_, fun u1 u2 d1 d2 => ?_⟩
  · rw [hevents]
    rw [List.count_append, List.count_append]
    have c1 : w.prepareEvents.count Ev.cleanupCall = 0 := by
      rw [List.count_eq_zero]
      intro hmem
      have := hpipe _ hmem
      simp [isPipelineEv] at this
    have c2 : (Ev.cleanupCall :: cleanupTempFiles w.fileExists w.unlinkOk info).count
        Ev.cleanupCall = 1 := by
      rw [List.count_cons_self]
      rw [List.count_eq_zero.mpr (cleanupCall_not_mem_cleanupTempFiles _ _ info)]
    have c3 : tail.count Ev.cleanupCall = 0 := by
      rw [List.count_eq_zero]
      intro hmem
      obtain ⟨n, b, hnb⟩ := htail _ hmem
      exact absurd hnb (by simp)
    omega
  · refine hme (List.mem_cons_of_mem _ ?_)
    unfold cleanupTempFiles
    rw [if_pos hnc, if_pos hex]
    simp
  · refine hme (List.mem_cons_of_mem _ ?_)
    unfold cleanupTempFiles
    rw [if_pos hnc]
    have hcond : (decide (info.originalPath ≠ info.processedPath)
        && w.fileExists info.originalPath) = true := by
      simp [hne, hex]
    rw [if_pos hcond]
    simp
  · cases hnc : info.needsCleanup
    · simp [cleanupTempFiles, hnc]
    · cases hex : w.fileExists info.processedPath <;>
        simp [cleanupTempFiles, hnc, hex, heq]
  · exact run_result_ignores_deletion_outcomes _ _ p rfl rfl rfl rfl rfl rfl

/-- Witness for `cleanup_exactly_once` at a concrete world in which the
generation stage fails: cleanup still runs exactly once and deletes
both distinct paths. -/
theorem cleanup_exactly_once_witness :
    ((transcribeAudioRun
        { prepareResult := .ok ⟨.converted, "audio/ogg".data, true, .tempAcquired⟩,
          prepareEvents := [Ev.writeTemp .tempAcquired],
          uploadResult := .ok "files/x".data,
          pollFailed := false,
          generateResult := .error "boom".data,
          jsonParse := fun _ => none,
          ts := ⟨"i".data, "r".data⟩,
          fileExists := fun _ => true, unlinkOk := fun _ => true, remoteDeleteOk := true }
        { fileContent := some "QUJD".data }).2.count Ev.cleanupCall = 1)
    ∧ Ev.unlink .converted true ∈
        (transcribeAudioRun
          { prepareResult := .ok ⟨.converted, "audio/ogg".data, true, .tempAcquired⟩,
            prepareEvents := [Ev.writeTemp .tempAcquired],
            uploadResult := .ok "files/x".data,
            pollFailed := false,
            generateResult := .error "boom".data,
            jsonParse := fun _ => none,
            ts := ⟨"i".data, "r".data⟩,
            fileExists := fun _ => true, unlinkOk := fun _ => true, remoteDeleteOk := true }
          { fileContent := some "QUJD".data }).2
    ∧ Ev.unlink .tempAcquired true ∈
        (transcribeAudioRun
          { prepareResult := .ok ⟨.converted, "audio/ogg".data, true, .tempAcquired⟩,
            prepareEvents := [Ev.writeTemp .tempAcquired],
            uploadResult := .ok "files/x".data,
            pollFailed := false,
            generateResult := .error "boom".data,
            jsonParse := fun _ => none,
            ts := ⟨"i".data, "r".data⟩,
            fileExists := fun _ => true, unlinkOk := fun _ => true, remoteDeleteOk := true }
          { fileContent := some "QUJD".data }).2 := by
  have h := cleanup_exactly_once
    { prepareResult := .ok ⟨.converted, "audio/ogg".data, true, .tempAcquired⟩,
      prepareEvents := [Ev.writeTemp .tempAcquired],
      uploadResult := .ok "files/x".data,
      pollFailed := false,
      generateResult := .error "boom".data,
      jsonParse := fun _ => none,
      ts := ⟨"i".data, "r".data⟩,
      fileExists := fun _ => true, unlinkOk := fun _ => true, remoteDeleteOk := true }
    { fileContent := some "QUJD".data }
    ⟨.converted, "audio/ogg".data, true, .tempAcquired⟩
    (by decide) rfl (by decide)
  exact ⟨h.1, h.2.1 rfl rfl, h.2.2.1 rfl (by decide) rfl⟩

-- C7 --------------------------------------------------------------------

/-- Whether an event is the remote deletion of the given handle name. -/
def isRemoteDeleteOf (name : Str) : Ev → Bool
  | .remoteDelete n _ => n == name
  | _ => false

lemma transcribeAudioRun_events_upload_ok (w : RunWorld) (p : PrepareAudioParams)
    (info : PreparedAudioInfo) (name : Str)
    (hvar : (!truthy p.fileContent && !truthy p.fileUrl && !truthy p.sshHost) = false)
    (hprep : w.prepareResult = .ok info)
    (hup : w.uploadResult = .ok name) :
    (transcribeAudioRun w p).2 =
      w.prepareEvents ++ (Ev.cleanupCall :: cleanupTempFiles w.fileExists w.unlinkOk info)
        ++ [Ev.remoteDelete name w.remoteDeleteOk] := by
  have hcond : ¬((!truthy p.fileContent && !truthy p.fileUrl && !truthy p.sshHost) = true) := by
    simp [hvar]
  unfold transcribeAudioRun
  rw [if_neg hcond, hprep, hup]
  cases hpoll : w.pollFailed
  · rcases hgen : w.generateResult with m2 | t
    · simp [finallyEvents, List.append_assoc]
    · by_cases htext : (t.getD []).isEmpty = true <;>
        simp [finallyEvents, htext, List.append_assoc]
  · simp [finallyEvents, List.append_assoc]

/-- C7: once the upload returned a handle name, remote deletion of that
handle is attempted exactly once on every exit of the remaining
pipeline (polling failure, generation failure, empty text, success),
and the outcome of the deletion never changes the returned
result or error. -/
theorem remote_release_exactly_once (w : RunWorld) (p : PrepareAudioParams)
    (info : PreparedAudioInfo) (name : Str)
    (hvar : (!truthy p.fileContent && !truthy p.fileUrl && !truthy p.sshHost) = false)
    (hprep : w.prepareResult = .ok info)
    (hup : w.uploadResult = .ok name)
    (hpipe : ∀ e ∈ w.prepareEvents, isPipelineEv e = true) :
    ((transcribeAudioRun w p).2.countP (isRemoteDeleteOf name) = 1)
    ∧ (∀ d1 d2 : Bool,
        (transcribeAudioRun { w with remoteDeleteOk := d1 } p).1
          = (transcribeAudioRun { w with remoteDeleteOk := d2 } p).1) := by
  constructor
  · rw [transcribeAudioRun_events_upload_ok w p info name hvar hprep hup]
    rw [List.countP_append, List.countP_append]
    have c1 : w.prepareEvents.countP (isRemoteDeleteOf name) = 0 := by
      rw [List.countP_eq_zero]
      intro e hmem
      have hp := hpipe _ hmem
      cases e <;> simp_all [isPipelineEv, isRemoteDeleteOf]
    have c2 : (Ev.cleanupCall :: cleanupTempFiles w.fileExists w.unlinkOk info).countP
        (isRemoteDeleteOf name) = 0 := by
      rw [List.countP_eq_zero]
      intro e hmem
      rcases List.mem_cons.mp hmem with rfl | hmem2
      · simp [isRemoteDeleteOf]
      · obtain ⟨q, b, rfl⟩ := cleanupTempFiles_only_unlinks _ _ _ _ hmem2
        simp [isRemoteDeleteOf]
    have c3 : ([Ev.remoteDelete name w.remoteDeleteOk] : List Ev).countP
        (isRemoteDeleteOf name) = 1 := by
      simp [List.countP_cons, isRemoteDeleteOf]
    omega
  · intro d1 d2
    exact run_result_ignores_deletion_outcomes _ _ p rfl rfl rfl rfl rfl rfl

/-- Witness for `remote_release_exactly_once`: a successful run
performs exactly one remote delete of the uploaded handle, and a
failing delete leaves the result unchanged. -/
theorem remote_release_exactly_once_witness :
    ((transcribeAudioRun
        { prepareResult := .ok ⟨.tempAcquired, "audio/mp3".data, true, .tempAcquired⟩,
          prepareEvents := [Ev.writeTemp .tempAcquired],
          uploadResult := .ok "files/y".data,
          pollFailed := false,
          generateResult := .ok (some "out".data),
          jsonParse := fun _ => none,
          ts := ⟨"i".data, "r".data⟩,
          fileExists := fun _ => true, unlinkOk := fun _ => true, remoteDeleteOk := true }
        { fileContent := some "QUJD".data }).2.countP (isRemoteDeleteOf "files/y".data) = 1)
    ∧ (transcribeAudioRun
        { prepareResult := .ok ⟨.tempAcquired, "audio/mp3".data, true, .tempAcquired⟩,
          prepareEvents := [Ev.writeTemp .tempAcquired],
          uploadResult := .ok "files/y".data,
          pollFailed := false,
          generateResult := .ok (some "out".data),
          jsonParse := fun _ => none,
          ts := ⟨"i".data, "r".data⟩,
          fileExists := fun _ => true, unlinkOk := fun _ => true, remoteDeleteOk := true }
        { fileContent := some "QUJD".data }).1
      = (transcribeAudioRun
        { prepareResult := .ok ⟨.tempAcquired, "audio/mp3".data, true, .tempAcquired⟩,
          prepareEvents := [Ev.writeTemp .tempAcquired],
          uploadResult := .ok "files/y".data,
          pollFailed := false,
          generateResult := .ok (some "out".data),
          jsonParse := fun _ => none,
          ts := ⟨"i".data, "r".data⟩,
          fileExists := fun _ => true, unlinkOk := fun _ => true, remoteDeleteOk := false }
        { fileContent := some "QUJD".data }).1 := by
  have h := remote_release_exactly_once
    { prepareResult := .ok ⟨.tempAcquired, "audio/mp3".data, true, .tempAcquired⟩,
      prepareEvents := [Ev.writeTemp .tempAcquired],
      uploadResult := .ok "files/y".data,
      pollFailed := false,
      generateResult := .ok (some "out".data),
      jsonParse := fun _ => none,
      ts := ⟨"i".data, "r".data⟩,
      fileExists := fun _ => true, unlinkOk := fun _ => true, remoteDeleteOk := true }
    { fileContent := some "QUJD".data }
    ⟨.tempAcquired, "audio/mp3".data, true, .tempAcquired⟩
    "files/y".data (by decide) rfl rfl (by decide)
  exact ⟨h.1, h.2 true false⟩

-- C10 -------------------------------------------------------------------

lemma orDefault_ne_nil (v : Option Str) (d : Str) (hd : d ≠ []) :
    orDefault v d ≠ [] := by
  unfold orDefault
  rcases v with _ | s
  · exact hd
  · by_cases hs : s.isEmpty = true
    · simpa [hs] using hd
    · simp only [hs, if_false]
      simpa using hs

lemma orDefault_degenerate (v : Option Str) (d : Str)
    (h : v = none ∨ v = some []) : orDefault v d = d := by
  rcases h with rfl | rfl <;> simp [orDefault]

/-- C10: every successfully returned `TranscriptionResponse` has
non-empty title, description and transcript; the defaults are applied
field-wise — an absent or empty parsed title becomes `"Voice Note"`, an
absent or empty description becomes `"Transcribed voice note."`, an
absent or empty transcript becomes the raw (non-empty) response text —
regardless of whether JSON parsing succeeded. -/
theorem response_fields_nonempty (w : RunWorld) (p : PrepareAudioParams)
    (resp : TranscriptionResponse)
    (h : (transcribeAudioRun w p).1 = .ok resp) :
    resp.title ≠ [] ∧ resp.description ≠ [] ∧ resp.transcript ≠ []
    ∧ ∃ text : Str, text ≠ []
        ∧ resp = buildResponse (parseJsonResponse w.jsonParse text) text w.ts
        ∧ (((parseJsonResponse w.jsonParse text).title = none
            ∨ (parseJsonResponse w.jsonParse text).title = some []) →
            resp.title = "Voice Note".data)
        ∧ (((parseJsonResponse w.jsonParse text).description = none
            ∨ (parseJsonResponse w.jsonParse text).description = some []) →
            resp.description = "Transcribed voice note.".data)
        ∧ (((parseJsonResponse w.jsonParse text).transcript = none
            ∨ (parseJsonResponse w.jsonParse text).transcript = some []) →
            resp.transcript = text) := by
  by_cases hcond : (!truthy p.fileContent && !truthy p.fileUrl && !truthy p.sshHost) = true
  · unfold transcribeAudioRun at h
    rw [if_pos hcond] at h
    simp at h
  · unfold transcribeAudioRun at h
    rw [if_neg hcond] at h
    rcases hb : w.prepareResult with e | info <;> rw [hb] at h
    · simp at h
    · rcases hu : w.uploadResult with m | n <;> rw [hu] at h
      · simp at h
      · cases hf : w.pollFailed <;> rw [hf] at h
        · rcases hg : w.generateResult with m2 | t <;> rw [hg] at h
          · simp at h
          · simp only [] at h
            by_cases ht : (t.getD []).isEmpty = true
            · rw [if_pos ht] at h
              simp at h
            · rw [if_neg ht] at h
              have hresp : buildResponse (parseJsonResponse w.jsonParse (t.getD []))
                  (t.getD []) w.ts = resp := by
                exact Except.ok.inj h
              have htext : (t.getD []) ≠ [] := by
                simpa using ht
              subst hresp
              refine ⟨?_, ?_, ?_, t.getD [], htext, rfl, ?_, ?_, ?_⟩
              · exact orDefault_ne_nil _ _ (by decide)
              · exact orDefault_ne_nil _ _ (by decide)
              · exact orDefault_ne_nil _ _ htext
              · intro hdeg
                exact orDefault_degenerate _ _ hdeg
              · intro hdeg
                exact orDefault_degenerate _ _ hdeg
              · intro hdeg
                exact orDefault_degenerate _ _ hdeg
        · simp at h

/-- Witness for `response_fields_nonempty` at a concrete run whose
parsed reply has an empty title and no transcript field. -/
theorem response_fields_nonempty_witness :
    ("Voice Note".data : Str) ≠ [] ∧ ("Transcribed voice note.".data : Str) ≠ []
    ∧ ("out".data : Str) ≠ []
    ∧ (transcribeAudioRun
        { prepareResult := .ok ⟨.tempAcquired, "audio/mp3".data, true, .tempAcquired⟩,
          prepareEvents := [Ev.writeTemp .tempAcquired],
          uploadResult := .ok "files/z".data,
          pollFailed := false,
          generateResult := .ok (some "out".data),
          jsonParse := fun _ => some ⟨some [], some "D".data, none, none⟩,
          ts := ⟨"i".data, "r".data⟩,
          fileExists := fun _ => true, unlinkOk := fun _ => true, remoteDeleteOk := true }
        { fileContent := some "QUJD".data }).1 =
      .ok { title := "Voice Note".data, description := "D".data, transcript := "out".data,
            timestamp := "i".data, timestamp_readable := "r".data, formatApplied := none }
    ∧ (let resp0 := buildResponse ⟨some [], some "D".data, none, none⟩ "out".data ⟨"i".data, "r".data⟩;
       resp0.title ≠ [] ∧ resp0.description ≠ [] ∧ resp0.transcript ≠ []) := by
  refine ⟨by decide, by decide, by decide, by decide, ?_⟩
  have h := response_fields_nonempty
    { prepareResult := .ok ⟨.tempAcquired, "audio/mp3".data, true, .tempAcquired⟩,
      prepareEvents := [Ev.writeTemp .tempAcquired],
      uploadResult := .ok "files/z".data,
      pollFailed := false,
      generateResult := .ok (some "out".data),
      jsonParse := fun _ => some ⟨some [], some "D".data, none, none⟩,
      ts := ⟨"i".data, "r".data⟩,
      fileExists := fun _ => true, unlinkOk := fun _ => true, remoteDeleteOk := true }
    { fileContent := some "QUJD".data }
    (buildResponse ⟨some [], some "D".data, none, none⟩ "out".data ⟨"i".data, "r".data⟩)
    (by decide)
  exact ⟨h.1, h.2.1, h.2.2.1⟩
